import Mathlib

/-!
Verification of the grade engine in `src/backend/grades.py` (`GradeCalculator`).

Conventions of the shallow embedding:
* Python numbers are modelled as exact rationals (`ℚ`); Python's `round(x, d)`
  (round-half-to-even) is modelled by `roundTo d`.
* Python dicts that the engine iterates over (`self.categories`,
  `self.drop_lowest`) are modelled as insertion-ordered association lists;
  lookups use the first matching key, iteration follows list order.  A state
  built by `GradeCalculator.__init__` from a real dict has pairwise distinct
  keys, which theorems assume through `Nodup` hypotheses where it matters.
* `list.sort(key=...)` is Python's stable ascending sort; any stable sort has
  the same observable behaviour, so it is modelled by insertion sort
  (`sortByPct`), which is stable for the comparator used.
* Returned dicts are modelled as structures.  In `required_score` the
  `required_pct` key is sometimes *absent* from the returned dict (as opposed
  to present with value `None`), so that field is modelled as
  `Option (Option ℚ)`: `none` = key absent, `some none` = key present with
  `None`, `some (some x)` = key present with number `x`.
* The f-string `explanation` values are abstracted into the inductive
  `Explanation`, one constructor per formatting branch, carrying the numeric
  payloads that the source interpolates into the string.
-/

/-- A grade record, as in the `grades` input dicts
`{"category": ..., "name": ..., "score": ..., "max": ...}`. -/
structure GradeRecord where
  category : String
  name : String
  score : ℚ
  max : ℚ
deriving DecidableEq, Repr

/-- The sort key of `_category_grades`:
`g['score'] / g['max'] if g['max'] > 0 else 0`. -/
def pctKey (g : GradeRecord) : ℚ := if 0 < g.max then g.score / g.max else 0

/-- Stable insertion of a record into a list sorted ascending by `pctKey`. -/
def ordInsert (g : GradeRecord) : List GradeRecord → List GradeRecord
  | [] => [g]
  | b :: l => if pctKey g ≤ pctKey b then g :: b :: l else b :: ordInsert g l

/-- Model of `list.sort(key=lambda g: g['score'] / g['max'] if g['max'] > 0 else 0)`:
a stable ascending sort by `pctKey`. -/
def sortByPct : List GradeRecord → List GradeRecord
  | [] => []
  | a :: l => ordInsert a (sortByPct l)

/-- Round a rational to the nearest integer, ties to even
(the behaviour of Python 3's built-in `round`). -/
def rndInt (q : ℚ) : ℤ :=
  let f := ⌊q⌋
  let r := q - f
  if r < 1/2 then f
  else if 1/2 < r then f + 1
  else if f % 2 = 0 then f else f + 1

/-- Model of Python's `round(q, d)`. -/
def roundTo (d : ℕ) (q : ℚ) : ℚ := (rndInt (q * 10 ^ d) : ℚ) / 10 ^ d

/-- The engine state as stored by `GradeCalculator.__init__`:
`self.categories` (name → weight), `self.grades`, `self.drop_lowest`,
`self.missing_penalty`. -/
structure GradeCalculator where
  categories : List (String × ℚ)
  grades : List GradeRecord
  dropLowest : List (String × ℤ)
  missingPenalty : ℚ
deriving DecidableEq, Repr

/-- The optional `policies` block: `{"drop_lowest": {...}, "missing_penalty": n}`. -/
structure Policies where
  dropLowest : List (String × ℤ)
  missingPenalty : ℚ
deriving DecidableEq, Repr

/-- `GradeCalculator.__init__`: store the weight table, the grades and the two
policy fields (`drop_lowest` and `missing_penalty`). -/
def GradeCalculator.make (categories : List (String × ℚ)) (grades : List GradeRecord)
    (policies : Policies) : GradeCalculator :=
  ⟨categories, grades, policies.dropLowest, policies.missingPenalty⟩

/-- The records whose `category` field equals the target name, in input order. -/
def catFilter (s : GradeCalculator) (category : String) : List GradeRecord :=
  s.grades.filter (fun g => g.category == category)

/-- `_category_grades`: all grades of a category, sorted ascending by percentage. -/
def GradeCalculator.categoryGrades (s : GradeCalculator) (category : String) :
    List GradeRecord :=
  sortByPct (catFilter s category)

/-- `self.drop_lowest.get(category, 0)`. -/
def dropCount (s : GradeCalculator) (category : String) : ℤ :=
  (List.lookup category s.dropLowest).getD 0

/-- Sum of the `score` fields of a list of records. -/
def sumScores (l : List GradeRecord) : ℚ := (l.map (·.score)).sum

/-- Sum of the `max` fields of a list of records. -/
def sumMaxes (l : List GradeRecord) : ℚ := (l.map (·.max)).sum

/-- `_category_average(category, extra_grades)`: merge in the extra records,
apply drop-lowest when `0 < drop_n < len(cat_grades)`, and return
`total_score / total_max * 100`, or `None` when there are no records or the
total max is `0`. -/
def GradeCalculator.categoryAverage (s : GradeCalculator) (category : String)
    (extraGrades : List GradeRecord) : Option ℚ :=
  let base := s.categoryGrades category
  let catGrades := if extraGrades = [] then base else sortByPct (base ++ extraGrades)
  if catGrades = [] then none
  else
    let dropN := dropCount s category
    let kept :=
      if 0 < dropN ∧ dropN < (catGrades.length : ℤ) then catGrades.drop dropN.toNat
      else catGrades
    if sumMaxes kept = 0 then none
    else some (sumScores kept / sumMaxes kept * 100)

/-- `_to_letter`: the fixed descending threshold table. -/
def toLetter (pct : ℚ) : String :=
  if 93 ≤ pct then "A"
  else if 90 ≤ pct then "A-"
  else if 87 ≤ pct then "B+"
  else if 83 ≤ pct then "B"
  else if 80 ≤ pct then "B-"
  else if 77 ≤ pct then "C+"
  else if 73 ≤ pct then "C"
  else if 70 ≤ pct then "C-"
  else if 67 ≤ pct then "D+"
  else if 63 ≤ pct then "D"
  else if 60 ≤ pct then "D-"
  else "F"

/-- One per-category entry of `calculate()`'s `categories` output. -/
structure CategoryResult where
  average : Option ℚ
  weight : ℚ
  assignments : ℕ
deriving DecidableEq, Repr

/-- The dict returned by `calculate()`. -/
structure CalcResult where
  overall : Option ℚ
  letter : Option String
  categories : List (String × CategoryResult)
  weightCoverage : ℚ
deriving DecidableEq, Repr

/-- One iteration of `calculate()`'s loop over `self.categories.items()`:
record the per-category result and, when the average is present, accumulate
`weighted_sum += avg * weight` and `weight_used += weight`. -/
def calcStep (s : GradeCalculator) (acc : List (String × CategoryResult) × ℚ × ℚ)
    (p : String × ℚ) : List (String × CategoryResult) × ℚ × ℚ :=
  let avg := s.categoryAverage p.1 []
  let count := (s.categoryGrades p.1).length
  let entry : CategoryResult := ⟨avg.map (roundTo 2), p.2, count⟩
  match avg with
  | some a => (acc.1 ++ [(p.1, entry)], acc.2.1 + a * p.2, acc.2.2 + p.2)
  | none => (acc.1 ++ [(p.1, entry)], acc.2.1, acc.2.2)

/-- `calculate()`. -/
def GradeCalculator.calculate (s : GradeCalculator) : CalcResult :=
  let st := s.categories.foldl (calcStep s) ([], 0, 0)
  let overall := if 0 < st.2.2 then some (roundTo 2 (st.2.1 / st.2.2)) else none
  { overall := overall
    letter := overall.map toLetter
    categories := st.1
    weightCoverage := roundTo 1 (st.2.2 * 100) }

/-- The unrounded weighted overall produced by `calculate()`'s accumulation
(`weighted_sum / weight_used` before the final `round(..., 2)`), used to state
reachability of a target grade. -/
def GradeCalculator.rawOverall (s : GradeCalculator) : Option ℚ :=
  let st := s.categories.foldl (calcStep s) ([], 0, 0)
  if 0 < st.2.2 then some (st.2.1 / st.2.2) else none

/-- The loop of `required_score` over all *other* categories, accumulating
`other_weighted` and `other_weight_used`. -/
def otherTotals (s : GradeCalculator) (category : String) : ℚ × ℚ :=
  s.categories.foldl
    (fun acc p =>
      if p.1 == category then acc
      else
        match s.categoryAverage p.1 [] with
        | some a => (acc.1 + a * p.2, acc.2 + p.2)
        | none => acc)
    (0, 0)

/-- `self.categories.get(category, 0)` in `required_score`. -/
def targetCatWeight (s : GradeCalculator) (category : String) : ℚ :=
  (List.lookup category s.categories).getD 0

/-- `total_weight = other_weight_used + target_cat_weight`. -/
def totalWeightFor (s : GradeCalculator) (category : String) : ℚ :=
  (otherTotals s category).2 + targetCatWeight s category

/-- `needed_cat_avg = (target * total_weight - other_weighted) / target_cat_weight`. -/
def neededCatAvg (s : GradeCalculator) (target : ℚ) (category : String) : ℚ :=
  (target * totalWeightFor s category - (otherTotals s category).1) /
    targetCatWeight s category

/-- One bisection iteration of `_solve_required_with_drop`: evaluate the
category average with a synthetic record `{score: mid, max: max_score}` added
(the synthetic dict carries no `name`; the model uses `""`), then move the
lower or upper bound to the midpoint. -/
def solveStep (catGrades : List GradeRecord) (neededAvg maxScore : ℚ) (dropN : ℤ)
    (b : ℚ × ℚ) : ℚ × ℚ :=
  let mid := (b.1 + b.2) / 2
  let testGrade : GradeRecord :=
    ⟨(catGrades.head?.map (·.category)).getD "", "", mid, maxScore⟩
  let allGrades := sortByPct (catGrades ++ [testGrade])
  let afterDrop := allGrades.drop dropN.toNat
  let avg :=
    if 0 < sumMaxes afterDrop then sumScores afterDrop / sumMaxes afterDrop * 100 else 0
  if avg < neededAvg then (mid, b.2) else (b.1, mid)

/-- `n` bisection iterations (the source runs `for _ in range(100)`). -/
def solveIter (catGrades : List GradeRecord) (neededAvg maxScore : ℚ) (dropN : ℤ) :
    ℕ → ℚ × ℚ → ℚ × ℚ
  | 0, b => b
  | n + 1, b =>
    solveIter catGrades neededAvg maxScore dropN n
      (solveStep catGrades neededAvg maxScore dropN b)

/-- `_solve_required_with_drop`: 100 bisection steps on `[0, max_score]`, then
the midpoint of the final bounds.  (The source only calls it with `drop_n > 0`.) -/
def solveRequiredWithDrop (catGrades : List GradeRecord) (neededAvg maxScore : ℚ)
    (dropN : ℤ) : ℚ :=
  let b := solveIter catGrades neededAvg maxScore dropN 100 (0, maxScore)
  (b.1 + b.2) / 2

/-- The value `required` computed inside `required_score` (before the final
`round(required, 1)`): the bisection solver when
`drop_n > 0 and len(cat_grades) + 1 > drop_n`, else the closed form
`(needed_cat_avg / 100) * (total_max + max_score) - total_score`. -/
def rawRequired (s : GradeCalculator) (target : ℚ) (category : String)
    (maxScore : ℚ) : ℚ :=
  let catGrades := s.categoryGrades category
  let dropN := dropCount s category
  let needed := neededCatAvg s target category
  if 0 < dropN ∧ dropN < (catGrades.length : ℤ) + 1 then
    solveRequiredWithDrop catGrades needed maxScore dropN
  else
    (needed / 100) * (sumMaxes catGrades + maxScore) - sumScores catGrades

/-- The three formatted `explanation` strings of `required_score`, plus the
`'Missing category weight data.'` failure message, abstracted with the numeric
payloads the source interpolates. -/
inductive Explanation where
  | missingWeight
  | alreadyExceed (target : ℚ)
  | exceedsMax (requiredPct : Option ℚ)
  | scoreAtLeast (required maxScore : ℚ) (requiredPct : Option ℚ) (category : String)
deriving DecidableEq, Repr

/-- The dict returned by `required_score` (see the header comment for the
`Option (Option ℚ)` encoding of the sometimes-absent `required_pct` key). -/
structure RequiredResult where
  required : Option ℚ
  requiredPct : Option (Option ℚ)
  achievable : Bool
  explanation : Explanation
deriving DecidableEq, Repr

/-- `required_score(target, category, max_score)` (the source's default for
`max_score` is `100`). -/
def GradeCalculator.requiredScore (s : GradeCalculator) (target : ℚ)
    (category : String) (maxScore : ℚ) : RequiredResult :=
  if totalWeightFor s category = 0 ∨ targetCatWeight s category = 0 then
    { required := none, requiredPct := none, achievable := false
      explanation := .missingWeight }
  else
    let required := rawRequired s target category maxScore
    let requiredPct :=
      if 0 < maxScore then some (roundTo 1 (required / maxScore * 100)) else none
    let explanation :=
      if required < 0 then Explanation.alreadyExceed target
      else if maxScore < required then Explanation.exceedsMax requiredPct
      else Explanation.scoreAtLeast (roundTo 1 required) maxScore requiredPct
        category.toLower
    { required := some (roundTo 1 required)
      requiredPct := some requiredPct
      achievable := decide (0 ≤ required ∧ required ≤ maxScore)
      explanation := explanation }

/-- The dict returned by `what_if`. -/
structure WhatIfResult where
  current : Option ℚ
  projected : Option ℚ
  projectedLetter : Option String
  change : Option ℚ
  categories : List (String × CategoryResult)
deriving DecidableEq, Repr

/-- `what_if(hypotheticals)`: build a second calculator over
`self.grades + hypotheticals` with the same categories and policies, run
`calculate` on both, and report the difference. -/
def GradeCalculator.whatIf (s : GradeCalculator) (hypotheticals : List GradeRecord) :
    WhatIfResult :=
  let combined := s.grades ++ hypotheticals
  let projCalc : GradeCalculator :=
    { categories := s.categories, grades := combined
      dropLowest := s.dropLowest, missingPenalty := s.missingPenalty }
  let result := projCalc.calculate
  let current := s.calculate
  let change :=
    match result.overall, current.overall with
    | some a, some b => some (roundTo 2 (a - b))
    | _, _ => none
  { current := current.overall
    projected := result.overall
    projectedLetter := result.letter
    change := change
    categories := result.categories }

/-! ### The `calculate()` loop as sums over the category list -/

/-- Per-category contribution `avg * weight` to `weighted_sum`
(`0` when the average is absent). -/
def catContrib (s : GradeCalculator) (p : String × ℚ) : ℚ :=
  match s.categoryAverage p.1 [] with
  | some a => a * p.2
  | none => 0

/-- Per-category contribution to `weight_used` (`0` when the average is absent). -/
def catUsedWeight (s : GradeCalculator) (p : String × ℚ) : ℚ :=
  match s.categoryAverage p.1 [] with
  | some _ => p.2
  | none => 0

/-- The per-category entry that `calculate()` stores in `category_results`. -/
def catEntry (s : GradeCalculator) (p : String × ℚ) : String × CategoryResult :=
  (p.1, ⟨(s.categoryAverage p.1 []).map (roundTo 2), p.2, (s.categoryGrades p.1).length⟩)


/-- `weighted_sum` at the end of `calculate()`'s loop. -/
def weightedSumOf (s : GradeCalculator) : ℚ := (s.categories.map (catContrib s)).sum

/-- `weight_used` at the end of `calculate()`'s loop. -/
def weightUsedOf (s : GradeCalculator) : ℚ := (s.categories.map (catUsedWeight s)).sum


/-! ### Spec-side reference definitions for the `calculate()` refinement claim -/

/-- The category average exactly as the specification words it (§4.1): gather
the matching records, sort by percentage, drop the configured count when
enough records remain, and return `(sumScores/sumMax)*100` *rounded to
2 decimals*, absent when there are no records or the total max is `0`.
This is the spec-side definition used for the refinement comparison; the
engine-side definition is `GradeCalculator.categoryAverage`. -/
def specCategoryAverage (s : GradeCalculator) (category : String) : Option ℚ :=
  let recs := sortByPct (catFilter s category)
  if recs = [] then none
  else
    let dropN := dropCount s category
    let kept :=
      if 0 < dropN ∧ dropN < (recs.length : ℤ) then recs.drop dropN.toNat else recs
    if sumMaxes kept = 0 then none
    else some (roundTo 2 (sumScores kept / sumMaxes kept * 100))

/-- Spec-side per-category contribution to `weightedSum` (§4.2: accumulate
`average * weight` only for categories whose average is present, with the
average of §4.1, i.e. already rounded). -/
def specContrib (s : GradeCalculator) (p : String × ℚ) : ℚ :=
  match specCategoryAverage s p.1 with
  | some a => a * p.2
  | none => 0

/-- Spec-side per-category contribution to `weightUsed`. -/
def specUsedWeight (s : GradeCalculator) (p : String × ℚ) : ℚ :=
  match specCategoryAverage s p.1 with
  | some _ => p.2
  | none => 0

/-- The overall grade as the specification words it: `weightedSum / weightUsed`
rounded to 2 decimals, with both sums ranging only over categories whose
average is present, absent when `weightUsed` is `0`. -/
def specOverall (s : GradeCalculator) : Option ℚ :=
  let ws := (s.categories.map (specContrib s)).sum
  let wu := (s.categories.map (specUsedWeight s)).sum
  if 0 < wu then some (roundTo 2 (ws / wu)) else none

/-- The reference form of `calculate()` with the rounding applied only to the
reported values: the weighted sum ranges over the *unrounded* category
averages of the categories whose average is present, and `round(..., 2)` is
applied to each reported per-category average and to the final overall. -/
def refCalculate (s : GradeCalculator) : CalcResult :=
  { overall :=
      if 0 < weightUsedOf s then
        some (roundTo 2 (weightedSumOf s / weightUsedOf s))
      else none
    letter :=
      (if 0 < weightUsedOf s then
        some (roundTo 2 (weightedSumOf s / weightUsedOf s))
      else none).map toLetter
    categories :=
      s.categories.map (fun p =>
        (p.1, ⟨(s.categoryAverage p.1 []).map (roundTo 2), p.2,
          (s.categoryGrades p.1).length⟩))
    weightCoverage := roundTo 1 (weightUsedOf s * 100) }

/-! ### A division-checked model of `required_score` (for the totality claim)

Every Python `/` in the `required_score` code path is modelled by `divE`,
which fails on a zero denominator instead of relying on the source's guards.
Proving this checked model equal to `Except.ok` of the plain model shows that
every division in the source is reached only with a nonzero denominator. -/

/-- Division that fails on a zero denominator. -/
def divE (a b : ℚ) : Except String ℚ :=
  if b = 0 then Except.error "division by zero" else Except.ok (a / b)

/-- The checked sort key `g['score'] / g['max'] if g['max'] > 0 else 0`. -/
def pctKeyE (g : GradeRecord) : Except String ℚ :=
  if 0 < g.max then divE g.score g.max else Except.ok 0

/-- Python's `sort(key=...)` evaluates the key on every element (each call may
raise) and then permutes the list; the checked model therefore evaluates all
keys, then sorts. -/
def sortByPctE (l : List GradeRecord) : Except String (List GradeRecord) := do
  _ ← l.mapM pctKeyE
  Except.ok (sortByPct l)

/-- The checked `_category_average` (its division `total_score / total_max`
runs only after the `total_max == 0` guard). -/
def categoryAverageE (s : GradeCalculator) (category : String)
    (extraGrades : List GradeRecord) : Except String (Option ℚ) := do
  let base ← sortByPctE (catFilter s category)
  let catGrades ←
    if extraGrades = [] then Except.ok base else sortByPctE (base ++ extraGrades)
  if catGrades = [] then Except.ok none
  else
    let dropN := dropCount s category
    let kept :=
      if 0 < dropN ∧ dropN < (catGrades.length : ℤ) then catGrades.drop dropN.toNat
      else catGrades
    if sumMaxes kept = 0 then Except.ok none
    else do
      let q ← divE (sumScores kept) (sumMaxes kept)
      Except.ok (some (q * 100))

/-- The checked loop of `required_score` over the other categories. -/
def otherTotalsE (s : GradeCalculator) (category : String) :
    Except String (ℚ × ℚ) :=
  s.categories.foldlM
    (fun acc p =>
      if p.1 == category then Except.ok acc
      else do
        let avg ← categoryAverageE s p.1 []
        match avg with
        | some a => Except.ok (acc.1 + a * p.2, acc.2 + p.2)
        | none => Except.ok acc)
    (0, 0)

/-- One checked bisection iteration (its division is guarded by
`if total_m > 0`). -/
def solveStepE (catGrades : List GradeRecord) (neededAvg maxScore : ℚ)
    (dropN : ℤ) (b : ℚ × ℚ) : Except String (ℚ × ℚ) := do
  let mid := (b.1 + b.2) / 2
  let testGrade : GradeRecord :=
    ⟨(catGrades.head?.map (·.category)).getD "", "", mid, maxScore⟩
  let allGrades ← sortByPctE (catGrades ++ [testGrade])
  let afterDrop := allGrades.drop dropN.toNat
  let avg ←
    if 0 < sumMaxes afterDrop then do
      let q ← divE (sumScores afterDrop) (sumMaxes afterDrop)
      Except.ok (q * 100)
    else Except.ok (0 : ℚ)
  Except.ok (if avg < neededAvg then (mid, b.2) else (b.1, mid))

/-- The checked bisection loop. -/
def solveIterE (catGrades : List GradeRecord) (neededAvg maxScore : ℚ)
    (dropN : ℤ) : ℕ → ℚ × ℚ → Except String (ℚ × ℚ)
  | 0, b => Except.ok b
  | n + 1, b => do
    let b2 ← solveStepE catGrades neededAvg maxScore dropN b
    solveIterE catGrades neededAvg maxScore dropN n b2

/-- The checked `_solve_required_with_drop`. -/
def solveRequiredWithDropE (catGrades : List GradeRecord)
    (neededAvg maxScore : ℚ) (dropN : ℤ) : Except String ℚ := do
  let b ← solveIterE catGrades neededAvg maxScore dropN 100 (0, maxScore)
  Except.ok ((b.1 + b.2) / 2)

/-- The checked `required_score`: every division of the source
(`avg` inside `_category_average` calls, the sort keys, `needed_cat_avg`'s
division by `target_cat_weight`, `needed_cat_avg / 100`, the solver average
and `required / max_score`) goes through `divE`. -/
def requiredScoreE (s : GradeCalculator) (target : ℚ) (category : String)
    (maxScore : ℚ) : Except String RequiredResult := do
  let ot ← otherTotalsE s category
  let catGrades ← sortByPctE (catFilter s category)
  let dropN := dropCount s category
  let totalWeight := ot.2 + targetCatWeight s category
  if totalWeight = 0 ∨ targetCatWeight s category = 0 then
    Except.ok
      { required := none, requiredPct := none, achievable := false
        explanation := .missingWeight }
  else do
    let needed ← divE (target * totalWeight - ot.1) (targetCatWeight s category)
    let required ←
      if 0 < dropN ∧ dropN < (catGrades.length : ℤ) + 1 then
        solveRequiredWithDropE catGrades needed maxScore dropN
      else do
        let q ← divE needed 100
        Except.ok (q * (sumMaxes catGrades + maxScore) - sumScores catGrades)
    let requiredPct ←
      if 0 < maxScore then do
        let q ← divE required maxScore
        Except.ok (some (roundTo 1 (q * 100)))
      else Except.ok (none : Option ℚ)
    let explanation :=
      if required < 0 then Explanation.alreadyExceed target
      else if maxScore < required then Explanation.exceedsMax requiredPct
      else Explanation.scoreAtLeast (roundTo 1 required) maxScore requiredPct
        category.toLower
    Except.ok
      { required := some (roundTo 1 required)
        requiredPct := some requiredPct
        achievable := decide (0 ≤ required ∧ required ≤ maxScore)
        explanation := explanation }

/-- The record list `cat_grades` of `_category_average` after the optional
merge of extra records (the list whose length the drop count is compared
against). -/
def mergedGrades (s : GradeCalculator) (c : String) (extra : List GradeRecord) :
    List GradeRecord :=
  if extra = [] then s.categoryGrades c else sortByPct (s.categoryGrades c ++ extra)

/-- The records kept by `_category_average` after the drop-lowest slice. -/
def keptGrades (s : GradeCalculator) (c : String) (extra : List GradeRecord) :
    List GradeRecord :=
  if 0 < dropCount s c ∧ dropCount s c < ((mergedGrades s c extra).length : ℤ) then
    (mergedGrades s c extra).drop (dropCount s c).toNat
  else mergedGrades s c extra

/-! ### Basic properties of the stable sort -/

theorem ordInsert_perm (g : GradeRecord) (l : List GradeRecord) :
    List.Perm (ordInsert g l) (g :: l) := by
  induction l with
  | nil => simp [ordInsert]
  | cons b m ihm =>
    simp only [ordInsert]
    split
    · exact List.Perm.refl _
    · exact (ihm.cons b).trans (List.Perm.swap g b m)

theorem sortByPct_perm (l : List GradeRecord) : List.Perm (sortByPct l) l := by
  induction l with
  | nil => simp [sortByPct]
  | cons a l ih =>
    exact (ordInsert_perm a (sortByPct l)).trans (ih.cons a)

theorem mem_ordInsert {x g : GradeRecord} {l : List GradeRecord}
    (h : x ∈ ordInsert g l) : x = g ∨ x ∈ l := by
  have := (ordInsert_perm g l).mem_iff.mp h
  simpa using this

theorem ordInsert_pairwise {g : GradeRecord} {l : List GradeRecord}
    (h : l.Pairwise (fun a b => pctKey a ≤ pctKey b)) :
    (ordInsert g l).Pairwise (fun a b => pctKey a ≤ pctKey b) := by
  induction l with
  | nil => simp [ordInsert]
  | cons b m ihm =>
    rw [List.pairwise_cons] at h
    simp only [ordInsert]
    split
    · rename_i hgb
      refine List.Pairwise.cons ?_ (List.Pairwise.cons h.1 h.2)
      intro x hx
      rcases List.mem_cons.mp hx with rfl | hx
      · exact hgb
      · exact le_trans hgb (h.1 x hx)
    · rename_i hgb
      push_neg at hgb
      refine List.Pairwise.cons ?_ (ihm h.2)
      intro x hx
      rcases mem_ordInsert hx with rfl | hx
      · exact le_of_lt hgb
      · exact h.1 x hx

theorem sortByPct_pairwise (l : List GradeRecord) :
    (sortByPct l).Pairwise (fun a b => pctKey a ≤ pctKey b) := by
  induction l with
  | nil => simp [sortByPct]
  | cons a l ih => exact ordInsert_pairwise ih

theorem sumScores_perm {l l' : List GradeRecord} (h : List.Perm l l') :
    sumScores l = sumScores l' := by
  unfold sumScores
  exact List.Perm.sum_eq (h.map _)

theorem sumMaxes_perm {l l' : List GradeRecord} (h : List.Perm l l') :
    sumMaxes l = sumMaxes l' := by
  unfold sumMaxes
  exact List.Perm.sum_eq (h.map _)

theorem sortByPct_length (l : List GradeRecord) :
    (sortByPct l).length = l.length :=
  (sortByPct_perm l).length_eq

theorem sumScores_append (l l' : List GradeRecord) :
    sumScores (l ++ l') = sumScores l + sumScores l' := by
  simp [sumScores]

theorem sumMaxes_append (l l' : List GradeRecord) :
    sumMaxes (l ++ l') = sumMaxes l + sumMaxes l' := by
  simp [sumMaxes]

theorem sortByPct_eq_nil_iff (l : List GradeRecord) : sortByPct l = [] ↔ l = [] := by
  constructor
  · intro h
    have hl := (sortByPct_perm l).length_eq
    rw [h] at hl
    have hz : l.length = 0 := by simpa using hl.symm
    exact List.length_eq_zero.mp hz
  · intro h; rw [h]; rfl

/-! ### Properties of the rounding function -/

theorem rndInt_bounds (q : ℚ) : (⌊q⌋ : ℤ) ≤ rndInt q ∧ rndInt q ≤ ⌊q⌋ + 1 := by
  unfold rndInt
  dsimp only
  split
  · exact ⟨le_refl _, by omega⟩
  · split
    · exact ⟨by omega, le_refl _⟩
    · split
      · exact ⟨le_refl _, by omega⟩
      · exact ⟨by omega, le_refl _⟩

theorem abs_rndInt_sub (q : ℚ) : |(rndInt q : ℚ) - q| ≤ 1/2 := by
  have hf0 : (⌊q⌋ : ℚ) ≤ q := Int.floor_le q
  have hf1 : q < (⌊q⌋ : ℚ) + 1 := Int.lt_floor_add_one q
  unfold rndInt
  dsimp only
  split
  · rename_i h
    rw [abs_sub_le_iff]
    constructor <;> linarith
  · split
    · rename_i h1 h2
      push_neg at h1
      push_cast
      rw [abs_sub_le_iff]
      constructor <;> linarith
    · rename_i h1 h2
      push_neg at h1 h2
      have hr : q - (⌊q⌋ : ℚ) = 1/2 := le_antisymm h2 h1
      split
      · rw [abs_sub_le_iff]
        constructor <;> linarith
      · push_cast
        rw [abs_sub_le_iff]
        constructor <;> linarith

theorem rndInt_mono {a b : ℚ} (h : a ≤ b) : rndInt a ≤ rndInt b := by
  have ha := rndInt_bounds a
  have hb := rndInt_bounds b
  have hfab : ⌊a⌋ ≤ ⌊b⌋ := Int.floor_le_floor h
  rcases eq_or_lt_of_le h with rfl | hab
  · exact le_refl _
  rcases eq_or_lt_of_le hfab with hfeq | hflt
  · have hra : a - (⌊a⌋ : ℚ) < b - (⌊b⌋ : ℚ) := by
      rw [← hfeq]; linarith
    by_cases hcase : a - (⌊a⌋ : ℚ) < 1/2
    · have hea : rndInt a = ⌊a⌋ := by
        unfold rndInt
        dsimp only
        rw [if_pos hcase]
      omega
    · push_neg at hcase
      have hrb : 1/2 < b - (⌊b⌋ : ℚ) := lt_of_le_of_lt hcase hra
      have heb : rndInt b = ⌊b⌋ + 1 := by
        unfold rndInt
        dsimp only
        rw [if_neg (by push_neg; linarith), if_pos hrb]
      omega
  · omega

theorem rndInt_nonneg {q : ℚ} (h : 0 ≤ q) : 0 ≤ rndInt q := by
  have hb := rndInt_bounds q
  have : (0 : ℤ) ≤ ⌊q⌋ := Int.floor_nonneg.mpr h
  omega

theorem abs_roundTo_sub (d : ℕ) (q : ℚ) : |roundTo d q - q| ≤ 1 / (2 * 10 ^ d) := by
  have hpow : (0 : ℚ) < 10 ^ d := by positivity
  have h := abs_rndInt_sub (q * 10 ^ d)
  unfold roundTo
  have key : (rndInt (q * 10 ^ d) : ℚ) / 10 ^ d - q
      = ((rndInt (q * 10 ^ d) : ℚ) - q * 10 ^ d) / 10 ^ d := by
    field_simp
    ring
  rw [key, abs_div, abs_of_pos hpow, div_le_div_iff₀ hpow (by positivity)]
  calc |(rndInt (q * 10 ^ d) : ℚ) - q * 10 ^ d| * (2 * 10 ^ d)
      ≤ (1/2) * (2 * 10 ^ d) := by
        have h2 : (0 : ℚ) ≤ 2 * 10 ^ d := by positivity
        exact mul_le_mul_of_nonneg_right h h2
    _ = 1 * 10 ^ d := by ring

theorem roundTo_mono (d : ℕ) {a b : ℚ} (h : a ≤ b) : roundTo d a ≤ roundTo d b := by
  have hpow : (0 : ℚ) < 10 ^ d := by positivity
  unfold roundTo
  gcongr
  exact_mod_cast rndInt_mono (mul_le_mul_of_nonneg_right h (le_of_lt hpow))

theorem roundTo_nonneg (d : ℕ) {q : ℚ} (h : 0 ≤ q) : 0 ≤ roundTo d q := by
  have hpow : (0 : ℚ) < 10 ^ d := by positivity
  unfold roundTo
  have h1 : (0 : ℚ) ≤ (rndInt (q * 10 ^ d) : ℚ) := by
    exact_mod_cast rndInt_nonneg (by positivity)
  exact div_nonneg h1 (le_of_lt hpow)

theorem foldl_calcStep (s : GradeCalculator) (l : List (String × ℚ))
    (acc : List (String × CategoryResult) × ℚ × ℚ) :
    l.foldl (calcStep s) acc
      = (acc.1 ++ l.map (catEntry s),
         acc.2.1 + (l.map (catContrib s)).sum,
         acc.2.2 + (l.map (catUsedWeight s)).sum) := by
  induction l generalizing acc with
  | nil => simp
  | cons p l ih =>
    rw [List.foldl_cons, ih]
    rcases h : s.categoryAverage p.1 [] with _ | a <;>
      simp [calcStep, catEntry, catContrib, catUsedWeight, h, Prod.ext_iff, add_assoc]

theorem calculate_eq (s : GradeCalculator) :
    s.calculate
      = { overall := if 0 < weightUsedOf s then
            some (roundTo 2 (weightedSumOf s / weightUsedOf s)) else none,
          letter := (if 0 < weightUsedOf s then
            some (roundTo 2 (weightedSumOf s / weightUsedOf s)) else none).map toLetter,
          categories := s.categories.map (catEntry s),
          weightCoverage := roundTo 1 (weightUsedOf s * 100) } := by
  unfold GradeCalculator.calculate
  rw [foldl_calcStep]
  simp [weightedSumOf, weightUsedOf]

theorem rawOverall_eq (s : GradeCalculator) :
    s.rawOverall
      = if 0 < weightUsedOf s then some (weightedSumOf s / weightUsedOf s) else none := by
  unfold GradeCalculator.rawOverall
  rw [foldl_calcStep]
  simp [weightedSumOf, weightUsedOf]

theorem foldl_otherTotals (s : GradeCalculator) (c : String)
    (l : List (String × ℚ)) (acc : ℚ × ℚ) :
    l.foldl
      (fun acc p =>
        if p.1 == c then acc
        else
          match s.categoryAverage p.1 [] with
          | some a => (acc.1 + a * p.2, acc.2 + p.2)
          | none => acc)
      acc
      = (acc.1 + ((l.filter (fun p => !(p.1 == c))).map (catContrib s)).sum,
         acc.2 + ((l.filter (fun p => !(p.1 == c))).map (catUsedWeight s)).sum) := by
  induction l generalizing acc with
  | nil => simp
  | cons p l ih =>
    rw [List.foldl_cons]
    by_cases hc : p.1 = c
    · rw [if_pos (by simpa using hc), ih]
      simp [List.filter_cons, hc]
    · rw [if_neg (by simpa using hc)]
      rcases h : s.categoryAverage p.1 [] with _ | a
      · rw [ih]
        simp [List.filter_cons, hc, catContrib, catUsedWeight, h]
      · rw [ih]
        simp [List.filter_cons, hc, catContrib, catUsedWeight, h, Prod.ext_iff]
        constructor <;> ring

theorem otherTotals_eq (s : GradeCalculator) (c : String) :
    otherTotals s c
      = (((s.categories.filter (fun p => !(p.1 == c))).map (catContrib s)).sum,
         ((s.categories.filter (fun p => !(p.1 == c))).map (catUsedWeight s)).sum) := by
  unfold otherTotals
  rw [foldl_otherTotals]
  simp

/-! ### Bounds of the bisection solver -/

theorem solveStep_bounds (catGrades : List GradeRecord) (neededAvg maxScore : ℚ)
    (dropN : ℤ) (b : ℚ × ℚ) (h1 : 0 ≤ b.1) (h2 : b.1 ≤ b.2) (h3 : b.2 ≤ maxScore) :
    0 ≤ (solveStep catGrades neededAvg maxScore dropN b).1 ∧
      (solveStep catGrades neededAvg maxScore dropN b).1 ≤
        (solveStep catGrades neededAvg maxScore dropN b).2 ∧
      (solveStep catGrades neededAvg maxScore dropN b).2 ≤ maxScore := by
  unfold solveStep
  dsimp only
  split_ifs <;> refine ⟨?_, ?_, ?_⟩ <;> dsimp only <;> linarith

theorem solveIter_bounds (catGrades : List GradeRecord) (neededAvg maxScore : ℚ)
    (dropN : ℤ) :
    ∀ (n : ℕ) (b : ℚ × ℚ), 0 ≤ b.1 → b.1 ≤ b.2 → b.2 ≤ maxScore →
      0 ≤ (solveIter catGrades neededAvg maxScore dropN n b).1 ∧
        (solveIter catGrades neededAvg maxScore dropN n b).1 ≤
          (solveIter catGrades neededAvg maxScore dropN n b).2 ∧
        (solveIter catGrades neededAvg maxScore dropN n b).2 ≤ maxScore := by
  intro n
  induction n with
  | zero => intro b h1 h2 h3; exact ⟨h1, h2, h3⟩
  | succ n ih =>
    intro b h1 h2 h3
    have hs := solveStep_bounds catGrades neededAvg maxScore dropN b h1 h2 h3
    exact ih _ hs.1 hs.2.1 hs.2.2

theorem solveRequiredWithDrop_bounds (catGrades : List GradeRecord)
    (neededAvg maxScore : ℚ) (dropN : ℤ) (h : 0 ≤ maxScore) :
    0 ≤ solveRequiredWithDrop catGrades neededAvg maxScore dropN ∧
      solveRequiredWithDrop catGrades neededAvg maxScore dropN ≤ maxScore := by
  unfold solveRequiredWithDrop
  have hb := solveIter_bounds catGrades neededAvg maxScore dropN 100 (0, maxScore)
    (le_refl 0) h (le_refl maxScore)
  dsimp only
  obtain ⟨hb1, hb2, hb3⟩ := hb
  constructor
  · linarith
  · linarith

/-! ### Unfolding lemmas for `required_score` -/

theorem requiredScore_of_fail (s : GradeCalculator) (t : ℚ) (c : String) (m : ℚ)
    (h : totalWeightFor s c = 0 ∨ targetCatWeight s c = 0) :
    s.requiredScore t c m
      = { required := none, requiredPct := none, achievable := false
          explanation := .missingWeight } := by
  unfold GradeCalculator.requiredScore
  rw [if_pos h]

theorem requiredScore_of_ok (s : GradeCalculator) (t : ℚ) (c : String) (m : ℚ)
    (hW : totalWeightFor s c ≠ 0) (hw : targetCatWeight s c ≠ 0) :
    s.requiredScore t c m
      = { required := some (roundTo 1 (rawRequired s t c m)),
          requiredPct :=
            some (if 0 < m then some (roundTo 1 (rawRequired s t c m / m * 100)) else none),
          achievable := decide (0 ≤ rawRequired s t c m ∧ rawRequired s t c m ≤ m),
          explanation :=
            if rawRequired s t c m < 0 then Explanation.alreadyExceed t
            else if m < rawRequired s t c m then
              Explanation.exceedsMax
                (if 0 < m then some (roundTo 1 (rawRequired s t c m / m * 100)) else none)
            else
              Explanation.scoreAtLeast (roundTo 1 (rawRequired s t c m)) m
                (if 0 < m then some (roundTo 1 (rawRequired s t c m / m * 100)) else none)
                c.toLower } := by
  unfold GradeCalculator.requiredScore
  rw [if_neg (by push_neg; exact ⟨hW, hw⟩)]

/-! ### The operations only read `categories`, `grades` and `dropLowest` -/

theorem categoryGrades_ext {s1 s2 : GradeCalculator} (hg : s1.grades = s2.grades)
    (c : String) : s1.categoryGrades c = s2.categoryGrades c := by
  unfold GradeCalculator.categoryGrades catFilter
  rw [hg]

theorem categoryAverage_ext {s1 s2 : GradeCalculator} (hg : s1.grades = s2.grades)
    (hd : s1.dropLowest = s2.dropLowest) (c : String) (e : List GradeRecord) :
    s1.categoryAverage c e = s2.categoryAverage c e := by
  unfold GradeCalculator.categoryAverage dropCount
  rw [categoryGrades_ext hg, hd]

theorem calcStep_ext {s1 s2 : GradeCalculator} (hg : s1.grades = s2.grades)
    (hd : s1.dropLowest = s2.dropLowest) : calcStep s1 = calcStep s2 := by
  funext acc p
  unfold calcStep
  rw [categoryAverage_ext hg hd, categoryGrades_ext hg]

theorem calculate_ext {s1 s2 : GradeCalculator} (hc : s1.categories = s2.categories)
    (hg : s1.grades = s2.grades) (hd : s1.dropLowest = s2.dropLowest) :
    s1.calculate = s2.calculate := by
  unfold GradeCalculator.calculate
  rw [calcStep_ext hg hd, hc]

theorem otherTotals_ext {s1 s2 : GradeCalculator} (hc : s1.categories = s2.categories)
    (hg : s1.grades = s2.grades) (hd : s1.dropLowest = s2.dropLowest) (c : String) :
    otherTotals s1 c = otherTotals s2 c := by
  unfold otherTotals
  rw [hc]
  congr 1
  funext acc p
  rw [categoryAverage_ext hg hd]

theorem rawRequired_ext {s1 s2 : GradeCalculator} (hc : s1.categories = s2.categories)
    (hg : s1.grades = s2.grades) (hd : s1.dropLowest = s2.dropLowest)
    (t : ℚ) (c : String) (m : ℚ) : rawRequired s1 t c m = rawRequired s2 t c m := by
  unfold rawRequired neededCatAvg totalWeightFor targetCatWeight dropCount
  rw [categoryGrades_ext hg, otherTotals_ext hc hg hd, hc, hd]

theorem requiredScore_ext {s1 s2 : GradeCalculator} (hc : s1.categories = s2.categories)
    (hg : s1.grades = s2.grades) (hd : s1.dropLowest = s2.dropLowest)
    (t : ℚ) (c : String) (m : ℚ) :
    s1.requiredScore t c m = s2.requiredScore t c m := by
  unfold GradeCalculator.requiredScore
  rw [rawRequired_ext hc hg hd]
  unfold totalWeightFor targetCatWeight
  rw [otherTotals_ext hc hg hd, hc]

theorem whatIf_ext {s1 s2 : GradeCalculator} (hc : s1.categories = s2.categories)
    (hg : s1.grades = s2.grades) (hd : s1.dropLowest = s2.dropLowest)
    (hyps : List GradeRecord) : s1.whatIf hyps = s2.whatIf hyps := by
  unfold GradeCalculator.whatIf
  have hcomb :
      (⟨s1.categories, s1.grades ++ hyps, s1.dropLowest, s1.missingPenalty⟩ :
          GradeCalculator).calculate
        = (⟨s2.categories, s2.grades ++ hyps, s2.dropLowest, s2.missingPenalty⟩ :
          GradeCalculator).calculate :=
    calculate_ext (by simpa using hc) (by simp [hg]) (by simpa using hd)
  rw [calculate_ext hc hg hd]
  dsimp only
  rw [hcomb]

/-- C3: noninterference of `missing_penalty`.  Two engines built from the same
categories and grades and from policy blocks that differ only in the
`missing_penalty` value return identical results from `calculate()`,
`required_score(target, category, max_score)` (for all arguments) and
`what_if(hypotheticals)` (for all hypothetical lists): the field is stored by
`__init__` but never read by any computation. -/
theorem missingPenalty_noninterference (cats : List (String × ℚ))
    (grades : List GradeRecord) (dl : List (String × ℤ)) (mp1 mp2 : ℚ) :
    (GradeCalculator.make cats grades ⟨dl, mp1⟩).calculate
        = (GradeCalculator.make cats grades ⟨dl, mp2⟩).calculate
      ∧ (∀ (t : ℚ) (c : String) (m : ℚ),
          (GradeCalculator.make cats grades ⟨dl, mp1⟩).requiredScore t c m
            = (GradeCalculator.make cats grades ⟨dl, mp2⟩).requiredScore t c m)
      ∧ ∀ (hyps : List GradeRecord),
          (GradeCalculator.make cats grades ⟨dl, mp1⟩).whatIf hyps
            = (GradeCalculator.make cats grades ⟨dl, mp2⟩).whatIf hyps :=
  ⟨calculate_ext rfl rfl rfl,
   fun t c m => requiredScore_ext rfl rfl rfl t c m,
   fun hyps => whatIf_ext rfl rfl rfl hyps⟩

/-- C10: whenever `required_score` takes the drop-lowest solver branch
(`drop_n > 0` and `len(cat_grades) + 1 > drop_n`) with `max_score > 0`, a
positively weighted target category and a nonzero total weight, the returned
`required` is the midpoint of bisection bounds kept inside `[0, max_score]`:
the pre-rounding `required` satisfies `0 ≤ required ≤ max_score`, `achievable`
is `true`, and the explanation is always the `"Score at least ..."` branch
(never the `"already exceed"` or `"exceeds the max"` branches). -/
theorem requiredScore_drop_mode (s : GradeCalculator) (t : ℚ) (c : String) (m : ℚ)
    (hm : 0 < m) (hw : 0 < targetCatWeight s c) (hW : totalWeightFor s c ≠ 0)
    (hd : 0 < dropCount s c)
    (hlen : dropCount s c < (s.categoryGrades c).length + 1) :
    rawRequired s t c m
        = solveRequiredWithDrop (s.categoryGrades c) (neededCatAvg s t c) m
            (dropCount s c)
      ∧ 0 ≤ rawRequired s t c m ∧ rawRequired s t c m ≤ m
      ∧ (s.requiredScore t c m).achievable = true
      ∧ (s.requiredScore t c m).required = some (roundTo 1 (rawRequired s t c m))
      ∧ (s.requiredScore t c m).explanation
          = Explanation.scoreAtLeast (roundTo 1 (rawRequired s t c m)) m
              (some (roundTo 1 (rawRequired s t c m / m * 100))) c.toLower := by
  have hbranch : rawRequired s t c m
      = solveRequiredWithDrop (s.categoryGrades c) (neededCatAvg s t c) m
          (dropCount s c) := by
    unfold rawRequired
    rw [if_pos ⟨hd, hlen⟩]
  have hb := solveRequiredWithDrop_bounds (s.categoryGrades c) (neededCatAvg s t c) m
    (dropCount s c) (le_of_lt hm)
  have h0 : 0 ≤ rawRequired s t c m := by rw [hbranch]; exact hb.1
  have h1 : rawRequired s t c m ≤ m := by rw [hbranch]; exact hb.2
  have hok := requiredScore_of_ok s t c m hW (ne_of_gt hw)
  refine ⟨hbranch, h0, h1, ?_, ?_, ?_⟩
  · rw [hok]
    simp only [decide_eq_true_eq]
    exact ⟨h0, h1⟩
  · rw [hok]
  · rw [hok]
    simp only [if_neg (not_lt.mpr h0), if_neg (not_lt.mpr h1), if_pos hm]

/-- Witness for `requiredScore_drop_mode` at a concrete state: one category
`"Q"` of weight 1 with one 50/100 record and `drop_lowest = {"Q": 1}`. -/
theorem requiredScore_drop_mode_witness :
    (0 : ℚ) < 100
      ∧ 0 < targetCatWeight (⟨[("Q", 1)], [⟨"Q", "q1", 50, 100⟩], [("Q", 1)], 0⟩ :
          GradeCalculator) "Q"
      ∧ totalWeightFor (⟨[("Q", 1)], [⟨"Q", "q1", 50, 100⟩], [("Q", 1)], 0⟩ :
          GradeCalculator) "Q" ≠ 0
      ∧ 0 < dropCount (⟨[("Q", 1)], [⟨"Q", "q1", 50, 100⟩], [("Q", 1)], 0⟩ :
          GradeCalculator) "Q"
      ∧ dropCount (⟨[("Q", 1)], [⟨"Q", "q1", 50, 100⟩], [("Q", 1)], 0⟩ :
          GradeCalculator) "Q"
        < (((⟨[("Q", 1)], [⟨"Q", "q1", 50, 100⟩], [("Q", 1)], 0⟩ :
          GradeCalculator).categoryGrades "Q").length : ℤ) + 1
      ∧ ((⟨[("Q", 1)], [⟨"Q", "q1", 50, 100⟩], [("Q", 1)], 0⟩ :
          GradeCalculator).requiredScore 80 "Q" 100).achievable = true := by
  have hm : (0 : ℚ) < 100 := by norm_num
  have hw : 0 < targetCatWeight (⟨[("Q", 1)], [⟨"Q", "q1", 50, 100⟩], [("Q", 1)], 0⟩ :
      GradeCalculator) "Q" := by
    norm_num [targetCatWeight, List.lookup]
  have hW : totalWeightFor (⟨[("Q", 1)], [⟨"Q", "q1", 50, 100⟩], [("Q", 1)], 0⟩ :
      GradeCalculator) "Q" ≠ 0 := by
    norm_num [totalWeightFor, otherTotals_eq, targetCatWeight, List.lookup]
  have hd : 0 < dropCount (⟨[("Q", 1)], [⟨"Q", "q1", 50, 100⟩], [("Q", 1)], 0⟩ :
      GradeCalculator) "Q" := by
    norm_num [dropCount, List.lookup]
  have hlen : dropCount (⟨[("Q", 1)], [⟨"Q", "q1", 50, 100⟩], [("Q", 1)], 0⟩ :
      GradeCalculator) "Q"
      < (((⟨[("Q", 1)], [⟨"Q", "q1", 50, 100⟩], [("Q", 1)], 0⟩ :
        GradeCalculator).categoryGrades "Q").length : ℤ) + 1 := by
    norm_num [dropCount, List.lookup, GradeCalculator.categoryGrades, catFilter,
      sortByPct, ordInsert]
  exact ⟨hm, hw, hW, hd, hlen,
    (requiredScore_drop_mode _ 80 "Q" 100 hm hw hW hd hlen).2.2.2.1⟩

/-- C4 counterexample: for the state with a single zero-weight category `"T"`,
`required_score(90, "T", 100)` takes the missing-weight branch, whose returned
dict has no `required_pct` key (`requiredPct = none` in the model), refuting
the claim that the `requiredPct` field is present in every result. -/
theorem requiredScore_missing_pct_counterexample :
    ((⟨[("T", 0)], [], [], 0⟩ : GradeCalculator).requiredScore 90 "T" 100).requiredPct
        = none
      ∧ ((⟨[("T", 0)], [], [], 0⟩ : GradeCalculator).requiredScore 90 "T" 100).required
        = none
      ∧ ((⟨[("T", 0)], [], [], 0⟩ : GradeCalculator).requiredScore 90 "T" 100).achievable
        = false := by
  have h := requiredScore_of_fail (⟨[("T", 0)], [], [], 0⟩ : GradeCalculator) 90 "T" 100
    (Or.inr (by norm_num [targetCatWeight, List.lookup]))
  rw [h]
  exact ⟨rfl, rfl, rfl⟩

/-- C4 (amended): every result of `required_score` contains the `required`,
`achievable` and `explanation` fields; the `required_pct` field is present in
every result *except* the missing-category-weight failure result, which omits
it (and carries `required = None`, `achievable = false`). -/
theorem requiredScore_fields (s : GradeCalculator) (t : ℚ) (c : String) (m : ℚ) :
    (totalWeightFor s c = 0 ∨ targetCatWeight s c = 0 →
        s.requiredScore t c m
          = { required := none, requiredPct := none, achievable := false
              explanation := .missingWeight })
      ∧ (¬(totalWeightFor s c = 0 ∨ targetCatWeight s c = 0) →
          (s.requiredScore t c m).required.isSome = true
            ∧ (s.requiredScore t c m).requiredPct.isSome = true) := by
  constructor
  · intro h
    exact requiredScore_of_fail s t c m h
  · intro h
    push_neg at h
    rw [requiredScore_of_ok s t c m h.1 h.2]
    exact ⟨rfl, rfl⟩

/-- Witness for `requiredScore_fields` at a concrete state with a positively
weighted category: the success result carries both `required` and
`required_pct`. -/
theorem requiredScore_fields_witness :
    ¬(totalWeightFor (⟨[("T", 1)], [], [], 0⟩ : GradeCalculator) "T" = 0
        ∨ targetCatWeight (⟨[("T", 1)], [], [], 0⟩ : GradeCalculator) "T" = 0)
      ∧ ((⟨[("T", 1)], [], [], 0⟩ : GradeCalculator).requiredScore 90 "T"
          100).required.isSome = true
      ∧ ((⟨[("T", 1)], [], [], 0⟩ : GradeCalculator).requiredScore 90 "T"
          100).requiredPct.isSome = true := by
  have h : ¬(totalWeightFor (⟨[("T", 1)], [], [], 0⟩ : GradeCalculator) "T" = 0
      ∨ targetCatWeight (⟨[("T", 1)], [], [], 0⟩ : GradeCalculator) "T" = 0) := by
    push_neg
    norm_num [totalWeightFor, otherTotals_eq, targetCatWeight, List.lookup]
  have hc := (requiredScore_fields (⟨[("T", 1)], [], [], 0⟩ : GradeCalculator)
    90 "T" 100).2 h
  exact ⟨h, hc.1, hc.2⟩

/-- C2 counterexample: in category `"T"` with records `80/100` and `50/0`, the
`max = 0` record contributes its score 50 to the numerator (and its max 0 to
the denominator): the average is 130 with the record present but 80 with it
removed, refuting the claim that `max <= 0` records contribute to neither sum. -/
theorem zero_max_record_counterexample :
    (⟨[("T", 1)], [⟨"T", "a", 80, 100⟩, ⟨"T", "b", 50, 0⟩], [], 0⟩ :
        GradeCalculator).categoryAverage "T" [] = some 130
      ∧ (⟨[("T", 1)], [⟨"T", "a", 80, 100⟩], [], 0⟩ :
          GradeCalculator).categoryAverage "T" [] = some 80
      ∧ (⟨[("T", 1)], [⟨"T", "a", 80, 100⟩, ⟨"T", "b", 50, 0⟩], [], 0⟩ :
          GradeCalculator).categoryAverage "T" []
        ≠ (⟨[("T", 1)], [⟨"T", "a", 80, 100⟩], [], 0⟩ :
          GradeCalculator).categoryAverage "T" [] := by
  have h1 : (⟨[("T", 1)], [⟨"T", "a", 80, 100⟩, ⟨"T", "b", 50, 0⟩], [], 0⟩ :
      GradeCalculator).categoryAverage "T" [] = some 130 := by
    norm_num [GradeCalculator.categoryAverage, GradeCalculator.categoryGrades,
      catFilter, sortByPct, ordInsert, pctKey, dropCount, sumScores, sumMaxes,
      List.lookup]
    simp
  have h2 : (⟨[("T", 1)], [⟨"T", "a", 80, 100⟩], [], 0⟩ :
      GradeCalculator).categoryAverage "T" [] = some 80 := by
    norm_num [GradeCalculator.categoryAverage, GradeCalculator.categoryGrades,
      catFilter, sortByPct, ordInsert, pctKey, dropCount, sumScores, sumMaxes,
      List.lookup]
  refine ⟨h1, h2, ?_⟩
  rw [h1, h2]
  norm_num

/-- C2 (amended): records with `max <= 0` are *not* filtered out: with no drop
configured for the category, the average is `(sum of all matching scores) /
(sum of all matching maxes) * 100`, every matching record included; the only
guard is on the totals — the average is absent exactly when there is no
matching record or the total max is `0`. -/
theorem categoryAverage_sums_all_records (s : GradeCalculator) (c : String)
    (hnd : dropCount s c ≤ 0) :
    s.categoryAverage c []
      = if catFilter s c = [] ∨ sumMaxes (catFilter s c) = 0 then none
        else some (sumScores (catFilter s c) / sumMaxes (catFilter s c) * 100) := by
  have hsS : sumScores (s.categoryGrades c) = sumScores (catFilter s c) :=
    sumScores_perm (sortByPct_perm _)
  have hsM : sumMaxes (s.categoryGrades c) = sumMaxes (catFilter s c) :=
    sumMaxes_perm (sortByPct_perm _)
  simp only [GradeCalculator.categoryAverage, eq_self_iff_true, ite_true]
  by_cases hb : catFilter s c = []
  · have hbase : s.categoryGrades c = [] := by
      rw [GradeCalculator.categoryGrades, hb]
      rfl
    rw [if_pos hbase, if_pos (Or.inl hb)]
  · have hbase : ¬(s.categoryGrades c = []) := by
      rw [GradeCalculator.categoryGrades, sortByPct_eq_nil_iff]
      exact hb
    rw [if_neg hbase]
    have hdropfalse : ¬(0 < dropCount s c ∧
        dropCount s c < ((s.categoryGrades c).length : ℤ)) := by
      intro hcon
      omega
    rw [if_neg hdropfalse]
    by_cases hm0 : sumMaxes (catFilter s c) = 0
    · rw [if_pos (hsM.trans hm0 ▸ rfl), if_pos (Or.inr hm0)]
    · rw [if_neg (fun hcon => hm0 (hsM ▸ hcon)), if_neg (by simp [hb, hm0]),
        hsS, hsM]

theorem categoryAverage_merged (s : GradeCalculator) (c : String)
    (extra : List GradeRecord) :
    s.categoryAverage c extra
      = if mergedGrades s c extra = [] then none
        else if sumMaxes (keptGrades s c extra) = 0 then none
        else some (sumScores (keptGrades s c extra) / sumMaxes (keptGrades s c extra)
            * 100) := rfl

/-- Witness for `categoryAverage_sums_all_records`: with no drop policy, the
category `"T"` average over records `80/100` and `50/0` is
`(80+50)/(100+0)*100 = 130` — the `max = 0` record is included in both sums. -/
theorem categoryAverage_sums_all_records_witness :
    dropCount (⟨[("T", 1)], [⟨"T", "a", 80, 100⟩, ⟨"T", "b", 50, 0⟩], [], 0⟩ :
        GradeCalculator) "T" ≤ 0
      ∧ (⟨[("T", 1)], [⟨"T", "a", 80, 100⟩, ⟨"T", "b", 50, 0⟩], [], 0⟩ :
          GradeCalculator).categoryAverage "T" [] = some 130 := by
  have hnd : dropCount (⟨[("T", 1)], [⟨"T", "a", 80, 100⟩, ⟨"T", "b", 50, 0⟩], [], 0⟩ :
      GradeCalculator) "T" ≤ 0 := by
    norm_num [dropCount, List.lookup]
  refine ⟨hnd, ?_⟩
  rw [categoryAverage_sums_all_records _ "T" hnd]
  norm_num [catFilter, sumScores, sumMaxes]
  simp

/-- C6: drop-lowest never over-drops.  (i) In `_category_average`, when the
configured drop count is at least the number of records considered (real plus
extra), no record is dropped: the average is the plain sum ratio over *all*
of them.  (ii) In `required_score`, the drop-branch solver is entered exactly
when `drop_n > 0` and the record count including the one candidate record
exceeds `drop_n`; otherwise the closed form over all current records is used. -/
theorem drop_lowest_never_over_drops :
    (∀ (s : GradeCalculator) (c : String) (extra : List GradeRecord),
        ((mergedGrades s c extra).length : ℤ) ≤ dropCount s c →
          s.categoryAverage c extra
            = if mergedGrades s c extra = [] then none
              else if sumMaxes (mergedGrades s c extra) = 0 then none
              else some (sumScores (mergedGrades s c extra)
                  / sumMaxes (mergedGrades s c extra) * 100))
      ∧ (∀ (s : GradeCalculator) (t : ℚ) (c : String) (m : ℚ),
          ¬(0 < dropCount s c ∧
              dropCount s c < ((s.categoryGrades c).length : ℤ) + 1) →
            rawRequired s t c m
              = (neededCatAvg s t c / 100) * (sumMaxes (s.categoryGrades c) + m)
                - sumScores (s.categoryGrades c)) := by
  constructor
  · intro s c extra hge
    rw [categoryAverage_merged]
    have hkept : keptGrades s c extra = mergedGrades s c extra := by
      unfold keptGrades
      rw [if_neg (by omega)]
    rw [hkept]
  · intro s t c m hnb
    unfold rawRequired
    rw [if_neg hnb]

/-- Witness for `drop_lowest_never_over_drops`: (i) a single 70/100 record
with `drop_lowest = 1` keeps its own average 70; (ii) with `drop_lowest = 2`
and one record, `required_score`'s solver branch is not entered. -/
theorem drop_lowest_never_over_drops_witness :
    (((mergedGrades (⟨[("Q", 1)], [⟨"Q", "q1", 70, 100⟩], [("Q", 1)], 0⟩ :
          GradeCalculator) "Q" []).length : ℤ)
        ≤ dropCount (⟨[("Q", 1)], [⟨"Q", "q1", 70, 100⟩], [("Q", 1)], 0⟩ :
          GradeCalculator) "Q"
      ∧ (⟨[("Q", 1)], [⟨"Q", "q1", 70, 100⟩], [("Q", 1)], 0⟩ :
          GradeCalculator).categoryAverage "Q" [] = some 70)
      ∧ (¬(0 < dropCount (⟨[("Q", 1)], [⟨"Q", "q1", 70, 100⟩], [("Q", 2)], 0⟩ :
            GradeCalculator) "Q"
          ∧ dropCount (⟨[("Q", 1)], [⟨"Q", "q1", 70, 100⟩], [("Q", 2)], 0⟩ :
            GradeCalculator) "Q"
            < (((⟨[("Q", 1)], [⟨"Q", "q1", 70, 100⟩], [("Q", 2)], 0⟩ :
              GradeCalculator).categoryGrades "Q").length : ℤ) + 1)
        ∧ rawRequired (⟨[("Q", 1)], [⟨"Q", "q1", 70, 100⟩], [("Q", 2)], 0⟩ :
            GradeCalculator) 90 "Q" 100
          = (neededCatAvg (⟨[("Q", 1)], [⟨"Q", "q1", 70, 100⟩], [("Q", 2)], 0⟩ :
              GradeCalculator) 90 "Q" / 100)
            * (sumMaxes ((⟨[("Q", 1)], [⟨"Q", "q1", 70, 100⟩], [("Q", 2)], 0⟩ :
              GradeCalculator).categoryGrades "Q") + 100)
            - sumScores ((⟨[("Q", 1)], [⟨"Q", "q1", 70, 100⟩], [("Q", 2)], 0⟩ :
              GradeCalculator).categoryGrades "Q")) := by
  have hge : ((mergedGrades (⟨[("Q", 1)], [⟨"Q", "q1", 70, 100⟩], [("Q", 1)], 0⟩ :
      GradeCalculator) "Q" []).length : ℤ)
      ≤ dropCount (⟨[("Q", 1)], [⟨"Q", "q1", 70, 100⟩], [("Q", 1)], 0⟩ :
        GradeCalculator) "Q" := by
    norm_num [mergedGrades, GradeCalculator.categoryGrades, catFilter, sortByPct,
      ordInsert, dropCount, List.lookup]
  have hnb : ¬(0 < dropCount (⟨[("Q", 1)], [⟨"Q", "q1", 70, 100⟩], [("Q", 2)], 0⟩ :
      GradeCalculator) "Q"
      ∧ dropCount (⟨[("Q", 1)], [⟨"Q", "q1", 70, 100⟩], [("Q", 2)], 0⟩ :
        GradeCalculator) "Q"
        < (((⟨[("Q", 1)], [⟨"Q", "q1", 70, 100⟩], [("Q", 2)], 0⟩ :
          GradeCalculator).categoryGrades "Q").length : ℤ) + 1) := by
    norm_num [dropCount, List.lookup, GradeCalculator.categoryGrades, catFilter,
      sortByPct, ordInsert]
  refine ⟨⟨hge, ?_⟩, hnb, drop_lowest_never_over_drops.2 _ 90 "Q" 100 hnb⟩
  rw [drop_lowest_never_over_drops.1 _ "Q" [] hge]
  norm_num [mergedGrades, GradeCalculator.categoryGrades, catFilter, sortByPct,
    ordInsert, sumScores, sumMaxes]

/-- C5 counterexample: with categories `A` (weight 1) and `B` (weight 2) and
records `33336/100000` and `8326/100000`, the engine computes
`round((33.336*1 + 8.326*2)/3, 2) = 16.66`, while the spec reference — which
rounds each category average to 2 decimals *before* weighting — computes
`round((33.34*1 + 8.33*2)/3, 2) = round(50/3, 2) = 16.67`.  `calculate()`
therefore does not equal the reference definition as worded. -/
theorem calculate_spec_rounding_counterexample :
    ((⟨[("A", 1), ("B", 2)], [⟨"A", "a1", 33336, 100000⟩, ⟨"B", "b1", 8326, 100000⟩],
        [], 0⟩ : GradeCalculator).calculate).overall = some (1666/100)
      ∧ specOverall (⟨[("A", 1), ("B", 2)],
          [⟨"A", "a1", 33336, 100000⟩, ⟨"B", "b1", 8326, 100000⟩], [], 0⟩ :
          GradeCalculator) = some (1667/100)
      ∧ ((⟨[("A", 1), ("B", 2)], [⟨"A", "a1", 33336, 100000⟩, ⟨"B", "b1", 8326, 100000⟩],
          [], 0⟩ : GradeCalculator).calculate).overall
        ≠ specOverall (⟨[("A", 1), ("B", 2)],
          [⟨"A", "a1", 33336, 100000⟩, ⟨"B", "b1", 8326, 100000⟩], [], 0⟩ :
          GradeCalculator) := by
  have hA : (⟨[("A", 1), ("B", 2)],
      [⟨"A", "a1", 33336, 100000⟩, ⟨"B", "b1", 8326, 100000⟩], [], 0⟩ :
      GradeCalculator).categoryAverage "A" [] = some (33336/1000) := by
    norm_num [GradeCalculator.categoryAverage, GradeCalculator.categoryGrades,
      catFilter, sortByPct, ordInsert, pctKey, dropCount, sumScores, sumMaxes,
      List.lookup]
  have hB : (⟨[("A", 1), ("B", 2)],
      [⟨"A", "a1", 33336, 100000⟩, ⟨"B", "b1", 8326, 100000⟩], [], 0⟩ :
      GradeCalculator).categoryAverage "B" [] = some (8326/1000) := by
    norm_num [GradeCalculator.categoryAverage, GradeCalculator.categoryGrades,
      catFilter, sortByPct, ordInsert, pctKey, dropCount, sumScores, sumMaxes,
      List.lookup]
  have h1 : ((⟨[("A", 1), ("B", 2)],
      [⟨"A", "a1", 33336, 100000⟩, ⟨"B", "b1", 8326, 100000⟩], [], 0⟩ :
      GradeCalculator).calculate).overall = some (1666/100) := by
    rw [calculate_eq]
    norm_num [weightedSumOf, weightUsedOf, catContrib, catUsedWeight, hA, hB,
      roundTo, rndInt]
  have h2 : specOverall (⟨[("A", 1), ("B", 2)],
      [⟨"A", "a1", 33336, 100000⟩, ⟨"B", "b1", 8326, 100000⟩], [], 0⟩ :
      GradeCalculator) = some (1667/100) := by
    have hsA : specCategoryAverage (⟨[("A", 1), ("B", 2)],
        [⟨"A", "a1", 33336, 100000⟩, ⟨"B", "b1", 8326, 100000⟩], [], 0⟩ :
        GradeCalculator) "A" = some (3334/100) := by
      norm_num [specCategoryAverage, catFilter, sortByPct, ordInsert, pctKey,
        dropCount, sumScores, sumMaxes, List.lookup, roundTo, rndInt]
    have hsB : specCategoryAverage (⟨[("A", 1), ("B", 2)],
        [⟨"A", "a1", 33336, 100000⟩, ⟨"B", "b1", 8326, 100000⟩], [], 0⟩ :
        GradeCalculator) "B" = some (833/100) := by
      norm_num [specCategoryAverage, catFilter, sortByPct, ordInsert, pctKey,
        dropCount, sumScores, sumMaxes, List.lookup, roundTo, rndInt]
    norm_num [specOverall, specContrib, specUsedWeight, hsA, hsB, roundTo, rndInt]
  refine ⟨h1, h2, ?_⟩
  rw [h1, h2]
  norm_num

/-- C5 (amended): `calculate()` equals the reference definition in which the
weighted sum ranges over the *unrounded* category averages of the categories
whose average is present (absent when there are no records or the kept total
max is 0), `round(..., 2)` being applied to each reported per-category average
and to the final overall only; the overall is absent when `weight_used` is 0,
and categories with no countable grades are excluded from both the numerator
and the denominator. -/
theorem calculate_matches_reference (s : GradeCalculator) :
    s.calculate = refCalculate s := by
  rw [calculate_eq]
  unfold refCalculate catEntry
  rfl

/-! ### The checked model never fails -/

theorem exc_bind_ok {α β : Type} (a : α) (f : α → Except String β) :
    (Except.ok a >>= f : Except String β) = f a := rfl

theorem pctKeyE_ok (g : GradeRecord) : pctKeyE g = Except.ok (pctKey g) := by
  unfold pctKeyE pctKey divE
  split
  · rename_i h
    rw [if_neg (ne_of_gt h)]
  · rfl

theorem mapM_pctKeyE (l : List GradeRecord) :
    l.mapM pctKeyE = Except.ok (l.map pctKey) := by
  induction l with
  | nil => rfl
  | cons a l ih =>
    rw [List.mapM_cons]
    simp only [pctKeyE_ok, exc_bind_ok, ih]
    rfl

theorem sortByPctE_ok (l : List GradeRecord) :
    sortByPctE l = Except.ok (sortByPct l) := by
  unfold sortByPctE
  simp only [mapM_pctKeyE, exc_bind_ok]

theorem divE_branch (ss mm : ℚ) :
    (if mm = 0 then Except.ok (none : Option ℚ)
     else do
       let q ← divE ss mm
       Except.ok (some (q * 100)))
      = Except.ok (if mm = 0 then none else some (ss / mm * 100)) := by
  split
  · rfl
  · rename_i h
    rw [divE, if_neg h]
    rfl

theorem categoryAverageE_ok (s : GradeCalculator) (c : String)
    (e : List GradeRecord) :
    categoryAverageE s c e = Except.ok (s.categoryAverage c e) := by
  unfold categoryAverageE GradeCalculator.categoryAverage
    GradeCalculator.categoryGrades
  simp only [sortByPctE_ok, exc_bind_ok]
  by_cases he : e = []
  · subst he
    simp only [eq_self_iff_true, ite_true, exc_bind_ok]
    split
    · rfl
    · rw [divE_branch]
  · simp only [if_neg he, sortByPctE_ok, exc_bind_ok]
    split
    · rfl
    · rw [divE_branch]

theorem foldlM_ok {α β : Type} (f : β → α → Except String β) (g : β → α → β)
    (hf : ∀ b a, f b a = Except.ok (g b a)) :
    ∀ (l : List α) (b : β), l.foldlM f b = Except.ok (l.foldl g b) := by
  intro l
  induction l with
  | nil => intro b; rfl
  | cons a l ih =>
    intro b
    rw [List.foldlM_cons, hf, exc_bind_ok, ih, List.foldl_cons]

theorem otherTotalsE_ok (s : GradeCalculator) (c : String) :
    otherTotalsE s c = Except.ok (otherTotals s c) := by
  unfold otherTotalsE otherTotals
  apply foldlM_ok
  intro b p
  dsimp only
  split
  · rfl
  · rw [categoryAverageE_ok, exc_bind_ok]
    rcases h : s.categoryAverage p.1 [] with _ | a <;> rfl

theorem solveStepE_ok (catGrades : List GradeRecord) (neededAvg maxScore : ℚ)
    (dropN : ℤ) (b : ℚ × ℚ) :
    solveStepE catGrades neededAvg maxScore dropN b
      = Except.ok (solveStep catGrades neededAvg maxScore dropN b) := by
  unfold solveStepE solveStep
  simp only [sortByPctE_ok, exc_bind_ok]
  split
  · rename_i h
    rw [divE, if_neg (ne_of_gt h)]
    rfl
  · rfl

theorem solveIterE_ok (catGrades : List GradeRecord) (neededAvg maxScore : ℚ)
    (dropN : ℤ) :
    ∀ (n : ℕ) (b : ℚ × ℚ),
      solveIterE catGrades neededAvg maxScore dropN n b
        = Except.ok (solveIter catGrades neededAvg maxScore dropN n b) := by
  intro n
  induction n with
  | zero => intro b; rfl
  | succ n ih =>
    intro b
    rw [solveIterE, solveIter, solveStepE_ok, exc_bind_ok, ih]

theorem solveRequiredWithDropE_ok (catGrades : List GradeRecord)
    (neededAvg maxScore : ℚ) (dropN : ℤ) :
    solveRequiredWithDropE catGrades neededAvg maxScore dropN
      = Except.ok (solveRequiredWithDrop catGrades neededAvg maxScore dropN) := by
  unfold solveRequiredWithDropE solveRequiredWithDrop
  rw [solveIterE_ok, exc_bind_ok]

/-- C9: totality of `required_score`.  The checked model, in which every
division of the source fails on a zero denominator instead of relying on the
guards, returns `Except.ok` of the plain result for *every* input state,
target, category and max score — i.e. every division (the sort keys, the
category-average ratio, `needed_cat_avg`'s division by `target_cat_weight`,
the solver's average and `required / max_score`) is reached only with a
nonzero denominator, and `required_score` never raises. -/
theorem requiredScoreE_ok (s : GradeCalculator) (t : ℚ) (c : String) (m : ℚ) :
    requiredScoreE s t c m = Except.ok (s.requiredScore t c m) := by
  unfold requiredScoreE GradeCalculator.requiredScore rawRequired neededCatAvg
    totalWeightFor GradeCalculator.categoryGrades
  rw [otherTotalsE_ok, exc_bind_ok, sortByPctE_ok, exc_bind_ok]
  dsimp only
  split
  · rfl
  · rename_i hfail
    push_neg at hfail
    simp only [divE, if_neg hfail.2, exc_bind_ok]
    split
    · simp only [solveRequiredWithDropE_ok, exc_bind_ok]
      split
      · rename_i hms
        simp only [divE, if_neg (ne_of_gt hms), exc_bind_ok]
      · rfl
    · simp only [divE, if_neg (by norm_num : (100 : ℚ) ≠ 0), exc_bind_ok]
      split
      · rename_i hms
        simp only [divE, if_neg (ne_of_gt hms), exc_bind_ok]
      · rfl

/-! ### Decomposing `calculate` around one target category -/

theorem lookup_of_mem_nodup {l : List (String × ℚ)} {c : String} {w : ℚ}
    (hnd : (l.map Prod.fst).Nodup) (hmem : (c, w) ∈ l) :
    List.lookup c l = some w := by
  induction l with
  | nil => cases hmem
  | cons p l ih =>
    obtain ⟨k, v⟩ := p
    rw [List.map_cons, List.nodup_cons] at hnd
    rcases List.mem_cons.mp hmem with heq | hmem'
    · cases heq
      simp [List.lookup]
    · have hne : (c == k) = false := by
        refine beq_eq_false_iff_ne.mpr ?_
        intro he
        apply hnd.1
        show k ∈ List.map Prod.fst l
        rw [← he]
        exact List.mem_map.mpr ⟨(c, w), hmem', rfl⟩
      rw [List.lookup, hne]
      exact ih hnd.2 hmem'

theorem sum_map_filter_add {l : List (String × ℚ)} {c : String} {w : ℚ}
    (hnd : (l.map Prod.fst).Nodup) (hmem : (c, w) ∈ l) (f : String × ℚ → ℚ) :
    (l.map f).sum = ((l.filter (fun p => !(p.1 == c))).map f).sum + f (c, w) := by
  induction l with
  | nil => cases hmem
  | cons p l ih =>
    rw [List.map_cons, List.nodup_cons] at hnd
    rcases List.mem_cons.mp hmem with heq | hmem'
    · have hp : p = (c, w) := heq.symm
      subst hp
      have hall : l.filter (fun q => !(q.1 == c)) = l := by
        refine List.filter_eq_self.mpr ?_
        intro q hq
        have hqc : q.1 ≠ c := by
          intro he
          apply hnd.1
          show c ∈ List.map Prod.fst l
          rw [← he]
          exact List.mem_map.mpr ⟨q, hq, rfl⟩
        simp [hqc]
      rw [List.filter_cons]
      simp only [beq_self_eq_true, Bool.not_true, Bool.false_eq_true, if_false, hall]
      rw [List.map_cons, List.sum_cons]
      ring
    · have hp1c : p.1 ≠ c := by
        intro he
        apply hnd.1
        show p.1 ∈ List.map Prod.fst l
        rw [he]
        exact List.mem_map.mpr ⟨(c, w), hmem', rfl⟩
      rw [List.filter_cons]
      have hcond : (!(p.1 == c)) = true := by simp [hp1c]
      rw [if_pos hcond, List.map_cons, List.sum_cons, List.map_cons, List.sum_cons,
        ih hnd.2 hmem']
      ring

theorem catFilter_append_eq (s : GradeCalculator) (r : GradeRecord) (c : String)
    (h : r.category = c) :
    catFilter { s with grades := s.grades ++ [r] } c = catFilter s c ++ [r] := by
  unfold catFilter
  rw [show ({ s with grades := s.grades ++ [r] } : GradeCalculator).grades
      = s.grades ++ [r] from rfl]
  rw [List.filter_append]
  simp [h]

theorem catFilter_append_ne (s : GradeCalculator) (r : GradeRecord) (c : String)
    (h : r.category ≠ c) :
    catFilter { s with grades := s.grades ++ [r] } c = catFilter s c := by
  unfold catFilter
  rw [show ({ s with grades := s.grades ++ [r] } : GradeCalculator).grades
      = s.grades ++ [r] from rfl]
  rw [List.filter_append]
  simp [h]

theorem categoryAverage_append_ne (s : GradeCalculator) (r : GradeRecord)
    (p1 : String) (h : r.category ≠ p1) :
    ({ s with grades := s.grades ++ [r] } : GradeCalculator).categoryAverage p1 []
      = s.categoryAverage p1 [] := by
  unfold GradeCalculator.categoryAverage GradeCalculator.categoryGrades dropCount
  rw [catFilter_append_ne s r p1 h]

theorem categoryAverage_candidate (s : GradeCalculator) (c nm : String) (X m : ℚ)
    (hnb : ¬(0 < dropCount s c ∧
      dropCount s c < ((s.categoryGrades c).length : ℤ) + 1))
    (hMm : sumMaxes (s.categoryGrades c) + m ≠ 0) :
    ({ s with grades := s.grades ++ [⟨c, nm, X, m⟩] } : GradeCalculator).categoryAverage
        c []
      = some ((sumScores (s.categoryGrades c) + X)
          / (sumMaxes (s.categoryGrades c) + m) * 100) := by
  have hfil : catFilter { s with grades := s.grades ++ [⟨c, nm, X, m⟩] } c
      = catFilter s c ++ [⟨c, nm, X, m⟩] :=
    catFilter_append_eq s _ c rfl
  have hS : sumScores (sortByPct (catFilter s c ++ [⟨c, nm, X, m⟩]))
      = sumScores (s.categoryGrades c) + X := by
    rw [sumScores_perm (sortByPct_perm _), sumScores_append,
      show sumScores (s.categoryGrades c) = sumScores (catFilter s c) from
        sumScores_perm (sortByPct_perm _)]
    simp [sumScores]
  have hM : sumMaxes (sortByPct (catFilter s c ++ [⟨c, nm, X, m⟩]))
      = sumMaxes (s.categoryGrades c) + m := by
    rw [sumMaxes_perm (sortByPct_perm _), sumMaxes_append,
      show sumMaxes (s.categoryGrades c) = sumMaxes (catFilter s c) from
        sumMaxes_perm (sortByPct_perm _)]
    simp [sumMaxes]
  have hlen2 : (s.categoryGrades c).length = (catFilter s c).length :=
    sortByPct_length _
  have hlen : ((sortByPct (catFilter s c ++ [⟨c, nm, X, m⟩])).length : ℤ)
      = ((s.categoryGrades c).length : ℤ) + 1 := by
    rw [sortByPct_length, List.length_append, hlen2,
      show ([⟨c, nm, X, m⟩] : List GradeRecord).length = 1 from rfl]
    push_cast
    ring
  have hne : ¬(sortByPct (catFilter s c ++ [⟨c, nm, X, m⟩]) = []) := by
    rw [sortByPct_eq_nil_iff]
    simp
  unfold GradeCalculator.categoryAverage GradeCalculator.categoryGrades
  rw [show dropCount { s with grades := s.grades ++ [⟨c, nm, X, m⟩] } c
      = dropCount s c from rfl]
  rw [hfil]
  simp only [eq_self_iff_true, ite_true]
  rw [if_neg hne]
  have hcond : ¬(0 < dropCount s c ∧ dropCount s c
      < ((sortByPct (catFilter s c ++ [⟨c, nm, X, m⟩])).length : ℤ)) := by
    rw [hlen]
    exact hnb
  rw [if_neg hcond, if_neg (by rw [hM]; exact hMm), hS, hM]
  rfl

theorem candidate_totals (s : GradeCalculator) (c nm : String) (X m w : ℚ)
    (hndp : (s.categories.map Prod.fst).Nodup) (hmem : (c, w) ∈ s.categories) :
    weightedSumOf ({ s with grades := s.grades ++ [⟨c, nm, X, m⟩] })
        = (otherTotals s c).1
          + catContrib ({ s with grades := s.grades ++ [⟨c, nm, X, m⟩] }) (c, w)
      ∧ weightUsedOf ({ s with grades := s.grades ++ [⟨c, nm, X, m⟩] })
        = (otherTotals s c).2
          + catUsedWeight ({ s with grades := s.grades ++ [⟨c, nm, X, m⟩] }) (c, w) := by
  have hcats : ({ s with grades := s.grades ++ [⟨c, nm, X, m⟩] } :
      GradeCalculator).categories = s.categories := rfl
  constructor
  · unfold weightedSumOf
    rw [hcats, sum_map_filter_add hndp hmem (catContrib _)]
    rw [otherTotals_eq]
    have hmap : (s.categories.filter (fun p => !(p.1 == c))).map
        (catContrib ({ s with grades := s.grades ++ [⟨c, nm, X, m⟩] }))
        = (s.categories.filter (fun p => !(p.1 == c))).map (catContrib s) := by
      refine List.map_congr_left ?_
      intro p hp
      have hne : p.1 ≠ c := by simpa using List.of_mem_filter hp
      unfold catContrib
      rw [categoryAverage_append_ne s _ p.1 (Ne.symm hne)]
    rw [hmap]
  · unfold weightUsedOf
    rw [hcats, sum_map_filter_add hndp hmem (catUsedWeight _)]
    rw [otherTotals_eq]
    have hmap : (s.categories.filter (fun p => !(p.1 == c))).map
        (catUsedWeight ({ s with grades := s.grades ++ [⟨c, nm, X, m⟩] }))
        = (s.categories.filter (fun p => !(p.1 == c))).map (catUsedWeight s) := by
      refine List.map_congr_left ?_
      intro p hp
      have hne : p.1 ≠ c := by simpa using List.of_mem_filter hp
      unfold catUsedWeight
      rw [categoryAverage_append_ne s _ p.1 (Ne.symm hne)]
    rw [hmap]

theorem candidate_rawOverall (s : GradeCalculator) (c nm : String) (X m w : ℚ)
    (hndp : (s.categories.map Prod.fst).Nodup)
    (hmem : (c, w) ∈ s.categories)
    (hnb : ¬(0 < dropCount s c ∧
      dropCount s c < ((s.categoryGrades c).length : ℤ) + 1))
    (hMm : sumMaxes (s.categoryGrades c) + m ≠ 0)
    (hWpos : 0 < (otherTotals s c).2 + w) :
    ({ s with grades := s.grades ++ [⟨c, nm, X, m⟩] } : GradeCalculator).rawOverall
      = some (((otherTotals s c).1
          + (sumScores (s.categoryGrades c) + X)
            / (sumMaxes (s.categoryGrades c) + m) * 100 * w)
        / ((otherTotals s c).2 + w)) := by
  obtain ⟨h1, h2⟩ := candidate_totals s c nm X m w hndp hmem
  have hA := categoryAverage_candidate s c nm X m hnb hMm
  have hcontrib : catContrib ({ s with grades := s.grades ++ [⟨c, nm, X, m⟩] }) (c, w)
      = (sumScores (s.categoryGrades c) + X)
        / (sumMaxes (s.categoryGrades c) + m) * 100 * w := by
    unfold catContrib
    rw [hA]
  have hused : catUsedWeight ({ s with grades := s.grades ++ [⟨c, nm, X, m⟩] })
      (c, w) = w := by
    unfold catUsedWeight
    rw [hA]
  rw [rawOverall_eq, h2, hused, if_pos hWpos, h1, hcontrib]

theorem calculate_overall_eq_raw (s : GradeCalculator) :
    (s.calculate).overall = (s.rawOverall).map (roundTo 2) := by
  rw [calculate_eq, rawOverall_eq]
  dsimp only
  split
  · rfl
  · rfl

theorem sumScores_le_sumMaxes {l : List GradeRecord}
    (h : ∀ g ∈ l, g.score ≤ g.max) : sumScores l ≤ sumMaxes l := by
  unfold sumScores sumMaxes
  induction l with
  | nil => simp
  | cons g l ih =>
    simp only [List.map_cons, List.sum_cons]
    have h1 := h g (List.mem_cons_self g l)
    have h2 := ih (fun x hx => h x (List.mem_cons_of_mem g hx))
    linarith

theorem sumMaxes_nonneg {l : List GradeRecord}
    (h : ∀ g ∈ l, 0 ≤ g.max) : 0 ≤ sumMaxes l := by
  unfold sumMaxes
  induction l with
  | nil => simp
  | cons g l ih =>
    simp only [List.map_cons, List.sum_cons]
    have h1 := h g (List.mem_cons_self g l)
    have h2 := ih (fun x hx => h x (List.mem_cons_of_mem g hx))
    linarith

theorem mem_of_mem_keptGrades {s : GradeCalculator} {c : String}
    {extra : List GradeRecord} {g : GradeRecord}
    (hg : g ∈ keptGrades s c extra) : g ∈ catFilter s c ++ extra := by
  have hperm : List.Perm (mergedGrades s c extra) (catFilter s c ++ extra) := by
    unfold mergedGrades
    split
    · rename_i he
      rw [he]
      simpa using (sortByPct_perm (catFilter s c))
    · exact (sortByPct_perm _).trans
        ((sortByPct_perm (catFilter s c)).append_right extra)
  have hmem : g ∈ mergedGrades s c extra := by
    unfold keptGrades at hg
    split at hg
    · exact List.mem_of_mem_drop hg
    · exact hg
  exact hperm.mem_iff.mp hmem

/-- When every record of a category (plus extras) satisfies
`0 ≤ score ≤ max`, any present category average is at most 100. -/
theorem categoryAverage_le_100 (s : GradeCalculator) (c : String)
    (extra : List GradeRecord)
    (hmax : ∀ g ∈ catFilter s c ++ extra, 0 ≤ g.max ∧ g.score ≤ g.max) :
    ∀ a : ℚ, s.categoryAverage c extra = some a → a ≤ 100 := by
  intro a ha
  rw [categoryAverage_merged] at ha
  by_cases h1 : mergedGrades s c extra = []
  · rw [if_pos h1] at ha
    cases ha
  · rw [if_neg h1] at ha
    by_cases h2 : sumMaxes (keptGrades s c extra) = 0
    · rw [if_pos h2] at ha
      cases ha
    · rw [if_neg h2] at ha
      have hMpos : 0 < sumMaxes (keptGrades s c extra) := by
        have := sumMaxes_nonneg
          (fun g hg => (hmax g (mem_of_mem_keptGrades hg)).1)
        rcases lt_or_eq_of_le this with h | h
        · exact h
        · exact absurd h.symm h2
      have hSM : sumScores (keptGrades s c extra) ≤ sumMaxes (keptGrades s c extra) :=
        sumScores_le_sumMaxes (fun g hg => (hmax g (mem_of_mem_keptGrades hg)).2)
      have := Option.some.inj ha
      rw [← this]
      have hdiv : sumScores (keptGrades s c extra) / sumMaxes (keptGrades s c extra)
          ≤ 1 := (div_le_one hMpos).mpr hSM
      linarith

/-- C1 (amended): when `required_score` does *not* take the drop-lowest solver
branch, a positively weighted target category with positive total weight and
positive candidate-inclusive max for which even a perfect candidate score
leaves the (unrounded) overall below the target yields a pre-rounding
`required` strictly above `max_score` and `achievable = false`.  (In the
drop-lowest solver branch this fails: the bisection clamps `required` into
`[0, max_score]` and `achievable` is `true` even for unreachable targets —
see the counterexample.) -/
theorem requiredScore_unreachable_no_drop
    (s : GradeCalculator) (t : ℚ) (c : String) (m w : ℚ)
    (hndp : (s.categories.map Prod.fst).Nodup)
    (hmem : (c, w) ∈ s.categories)
    (hw : 0 < w)
    (hm : 0 ≤ m)
    (hMm : 0 < sumMaxes (s.categoryGrades c) + m)
    (hWpos : 0 < (otherTotals s c).2 + w)
    (hnb : ¬(0 < dropCount s c ∧
      dropCount s c < ((s.categoryGrades c).length : ℤ) + 1))
    (hunreach : ∀ X : ℚ, 0 ≤ X → X ≤ m → ∀ o : ℚ,
      ({ s with grades := s.grades ++ [⟨c, "next", X, m⟩] } :
        GradeCalculator).rawOverall = some o → o < t) :
    m < rawRequired s t c m ∧ (s.requiredScore t c m).achievable = false := by
  have htw : targetCatWeight s c = w := by
    unfold targetCatWeight
    rw [lookup_of_mem_nodup hndp hmem]
    rfl
  have hoverall := candidate_rawOverall s c "next" m m w hndp hmem hnb
    (ne_of_gt hMm) hWpos
  have hlt := hunreach m hm (le_refl m) _ hoverall
  have hraw : rawRequired s t c m
      = (neededCatAvg s t c / 100) * (sumMaxes (s.categoryGrades c) + m)
        - sumScores (s.categoryGrades c) := by
    unfold rawRequired
    rw [if_neg hnb]
  have hneed : neededCatAvg s t c
      = (t * ((otherTotals s c).2 + w) - (otherTotals s c).1) / w := by
    unfold neededCatAvg totalWeightFor
    rw [htw]
  have h1 : (otherTotals s c).1
      + (sumScores (s.categoryGrades c) + m)
        / (sumMaxes (s.categoryGrades c) + m) * 100 * w
      < t * ((otherTotals s c).2 + w) := by
    have := (div_lt_iff hWpos).mp hlt
    linarith
  have h2 : (sumScores (s.categoryGrades c) + m)
      / (sumMaxes (s.categoryGrades c) + m) * 100
      < (t * ((otherTotals s c).2 + w) - (otherTotals s c).1) / w := by
    rw [lt_div_iff hw]
    linarith
  have h3 : (sumScores (s.categoryGrades c) + m) * 100
      < ((t * ((otherTotals s c).2 + w) - (otherTotals s c).1) / w)
        * (sumMaxes (s.categoryGrades c) + m) := by
    have h2' : (sumScores (s.categoryGrades c) + m) * 100
        / (sumMaxes (s.categoryGrades c) + m)
        < (t * ((otherTotals s c).2 + w) - (otherTotals s c).1) / w := by
      rw [div_mul_eq_mul_div] at h2
      exact h2
    exact (div_lt_iff hMm).mp h2'
  have hgoal : m < rawRequired s t c m := by
    rw [hraw, hneed]
    have hexp : (t * ((otherTotals s c).2 + w) - (otherTotals s c).1) / w / 100
        * (sumMaxes (s.categoryGrades c) + m)
        = ((t * ((otherTotals s c).2 + w) - (otherTotals s c).1) / w)
          * (sumMaxes (s.categoryGrades c) + m) / 100 := by
      ring
    rw [hexp]
    linarith
  refine ⟨hgoal, ?_⟩
  have hWne : totalWeightFor s c ≠ 0 := by
    unfold totalWeightFor
    rw [htw]
    exact ne_of_gt hWpos
  rw [requiredScore_of_ok s t c m hWne (by rw [htw]; exact ne_of_gt hw)]
  simp only [decide_eq_false_iff_not]
  intro hcon
  exact absurd hgoal (not_lt.mpr hcon.2)

/-- C1 counterexample: two categories of weight 1 with one 0/100 record each
and `drop_lowest = {"Q": 1}`.  For every candidate score `X ∈ [0, 100]` on a
new 100-point `"Q"` assessment the (unrounded) overall stays below the target
90 — the best reachable overall is 50 — yet `required_score(90, "Q", 100)`
takes the bisection branch and returns `achievable = true`, refuting the
claim for drop-lowest categories. -/
theorem requiredScore_unreachable_drop_counterexample :
    (∀ X : ℚ, 0 ≤ X → X ≤ 100 → ∀ o : ℚ,
        (⟨[("A", 1), ("Q", 1)],
          [⟨"A", "a0", 0, 100⟩, ⟨"Q", "q0", 0, 100⟩, ⟨"Q", "next", X, 100⟩],
          [("Q", 1)], 0⟩ : GradeCalculator).rawOverall = some o → o < 90)
      ∧ ((⟨[("A", 1), ("Q", 1)], [⟨"A", "a0", 0, 100⟩, ⟨"Q", "q0", 0, 100⟩],
          [("Q", 1)], 0⟩ : GradeCalculator).requiredScore 90 "Q" 100).achievable
        = true := by
  constructor
  · intro X hX0 hX1 o ho
    have havgA : (⟨[("A", 1), ("Q", 1)],
        [⟨"A", "a0", 0, 100⟩, ⟨"Q", "q0", 0, 100⟩, ⟨"Q", "next", X, 100⟩],
        [("Q", 1)], 0⟩ : GradeCalculator).categoryAverage "A" [] = some 0 := by
      norm_num [GradeCalculator.categoryAverage, GradeCalculator.categoryGrades,
        catFilter, sortByPct, ordInsert, pctKey, dropCount, sumScores, sumMaxes,
        List.lookup, (show ("A" == "Q") = false from rfl)]
    have hQ100 : ∀ a : ℚ, (⟨[("A", 1), ("Q", 1)],
        [⟨"A", "a0", 0, 100⟩, ⟨"Q", "q0", 0, 100⟩, ⟨"Q", "next", X, 100⟩],
        [("Q", 1)], 0⟩ : GradeCalculator).categoryAverage "Q" [] = some a →
        a ≤ 100 := by
      apply categoryAverage_le_100
      intro g hg
      have hcases : g = ⟨"Q", "q0", 0, 100⟩ ∨ g = ⟨"Q", "next", X, 100⟩ := by
        simpa [catFilter] using hg
      rcases hcases with rfl | rfl
      · exact ⟨by norm_num, by norm_num⟩
      · exact ⟨by norm_num, hX1⟩
    rw [rawOverall_eq] at ho
    rcases hQ : (⟨[("A", 1), ("Q", 1)],
        [⟨"A", "a0", 0, 100⟩, ⟨"Q", "q0", 0, 100⟩, ⟨"Q", "next", X, 100⟩],
        [("Q", 1)], 0⟩ : GradeCalculator).categoryAverage "Q" [] with _ | a
    · have hwu : weightUsedOf (⟨[("A", 1), ("Q", 1)],
          [⟨"A", "a0", 0, 100⟩, ⟨"Q", "q0", 0, 100⟩, ⟨"Q", "next", X, 100⟩],
          [("Q", 1)], 0⟩ : GradeCalculator) = 1 := by
        simp [weightUsedOf, catUsedWeight, havgA, hQ]
      have hws : weightedSumOf (⟨[("A", 1), ("Q", 1)],
          [⟨"A", "a0", 0, 100⟩, ⟨"Q", "q0", 0, 100⟩, ⟨"Q", "next", X, 100⟩],
          [("Q", 1)], 0⟩ : GradeCalculator) = 0 := by
        simp [weightedSumOf, catContrib, havgA, hQ]
      rw [hwu, hws] at ho
      norm_num at ho
      linarith [ho]
    · have h100 := hQ100 a hQ
      have hwu : weightUsedOf (⟨[("A", 1), ("Q", 1)],
          [⟨"A", "a0", 0, 100⟩, ⟨"Q", "q0", 0, 100⟩, ⟨"Q", "next", X, 100⟩],
          [("Q", 1)], 0⟩ : GradeCalculator) = 2 := by
        simp [weightUsedOf, catUsedWeight, havgA, hQ]
        norm_num
      have hws : weightedSumOf (⟨[("A", 1), ("Q", 1)],
          [⟨"A", "a0", 0, 100⟩, ⟨"Q", "q0", 0, 100⟩, ⟨"Q", "next", X, 100⟩],
          [("Q", 1)], 0⟩ : GradeCalculator) = a := by
        simp [weightedSumOf, catContrib, havgA, hQ]
      rw [hwu, hws] at ho
      norm_num at ho
      linarith [ho]
  · have havgA : (⟨[("A", 1), ("Q", 1)],
        [⟨"A", "a0", 0, 100⟩, ⟨"Q", "q0", 0, 100⟩],
        [("Q", 1)], 0⟩ : GradeCalculator).categoryAverage "A" [] = some 0 := by
      norm_num [GradeCalculator.categoryAverage, GradeCalculator.categoryGrades,
        catFilter, sortByPct, ordInsert, pctKey, dropCount, sumScores, sumMaxes,
        List.lookup, (show ("A" == "Q") = false from rfl)]
    have hot : otherTotals (⟨[("A", 1), ("Q", 1)],
        [⟨"A", "a0", 0, 100⟩, ⟨"Q", "q0", 0, 100⟩],
        [("Q", 1)], 0⟩ : GradeCalculator) "Q" = (0, 1) := by
      rw [otherTotals_eq]
      simp [catContrib, catUsedWeight, havgA]
    have htw : targetCatWeight (⟨[("A", 1), ("Q", 1)],
        [⟨"A", "a0", 0, 100⟩, ⟨"Q", "q0", 0, 100⟩],
        [("Q", 1)], 0⟩ : GradeCalculator) "Q" = 1 := by
      norm_num [targetCatWeight, List.lookup, (show ("Q" == "A") = false from rfl)]
    have hWne : totalWeightFor (⟨[("A", 1), ("Q", 1)],
        [⟨"A", "a0", 0, 100⟩, ⟨"Q", "q0", 0, 100⟩],
        [("Q", 1)], 0⟩ : GradeCalculator) "Q" ≠ 0 := by
      unfold totalWeightFor
      rw [hot, htw]
      norm_num
    have hbranch : 0 < dropCount (⟨[("A", 1), ("Q", 1)],
        [⟨"A", "a0", 0, 100⟩, ⟨"Q", "q0", 0, 100⟩],
        [("Q", 1)], 0⟩ : GradeCalculator) "Q"
        ∧ dropCount (⟨[("A", 1), ("Q", 1)],
          [⟨"A", "a0", 0, 100⟩, ⟨"Q", "q0", 0, 100⟩],
          [("Q", 1)], 0⟩ : GradeCalculator) "Q"
          < (((⟨[("A", 1), ("Q", 1)],
            [⟨"A", "a0", 0, 100⟩, ⟨"Q", "q0", 0, 100⟩],
            [("Q", 1)], 0⟩ : GradeCalculator).categoryGrades "Q").length : ℤ) + 1 := by
      norm_num [dropCount, List.lookup, GradeCalculator.categoryGrades, catFilter,
        sortByPct, ordInsert]
    have hraw : rawRequired (⟨[("A", 1), ("Q", 1)],
        [⟨"A", "a0", 0, 100⟩, ⟨"Q", "q0", 0, 100⟩],
        [("Q", 1)], 0⟩ : GradeCalculator) 90 "Q" 100
        = solveRequiredWithDrop
            ((⟨[("A", 1), ("Q", 1)],
              [⟨"A", "a0", 0, 100⟩, ⟨"Q", "q0", 0, 100⟩],
              [("Q", 1)], 0⟩ : GradeCalculator).categoryGrades "Q")
            (neededCatAvg (⟨[("A", 1), ("Q", 1)],
              [⟨"A", "a0", 0, 100⟩, ⟨"Q", "q0", 0, 100⟩],
              [("Q", 1)], 0⟩ : GradeCalculator) 90 "Q") 100
            (dropCount (⟨[("A", 1), ("Q", 1)],
              [⟨"A", "a0", 0, 100⟩, ⟨"Q", "q0", 0, 100⟩],
              [("Q", 1)], 0⟩ : GradeCalculator) "Q") := by
      unfold rawRequired
      rw [if_pos hbranch]
    have hb := solveRequiredWithDrop_bounds
      ((⟨[("A", 1), ("Q", 1)],
        [⟨"A", "a0", 0, 100⟩, ⟨"Q", "q0", 0, 100⟩],
        [("Q", 1)], 0⟩ : GradeCalculator).categoryGrades "Q")
      (neededCatAvg (⟨[("A", 1), ("Q", 1)],
        [⟨"A", "a0", 0, 100⟩, ⟨"Q", "q0", 0, 100⟩],
        [("Q", 1)], 0⟩ : GradeCalculator) 90 "Q") 100
      (dropCount (⟨[("A", 1), ("Q", 1)],
        [⟨"A", "a0", 0, 100⟩, ⟨"Q", "q0", 0, 100⟩],
        [("Q", 1)], 0⟩ : GradeCalculator) "Q") (by norm_num)
    rw [requiredScore_of_ok _ 90 "Q" 100 hWne (by rw [htw]; norm_num)]
    simp only [decide_eq_true_eq]
    rw [hraw]
    exact ⟨hb.1, hb.2⟩

/-- Witness for `requiredScore_unreachable_no_drop`: one category `"T"` of
weight 1 with a single 0/100 record, no drop policy, target 200 and
`max_score = 100`: even a perfect candidate caps the overall at 50, and the
closed form yields `required = 400 > 100` with `achievable = false`. -/
theorem requiredScore_unreachable_no_drop_witness :
    ¬(0 < dropCount (⟨[("T", 1)], [⟨"T", "t1", 0, 100⟩], [], 0⟩ : GradeCalculator)
          "T"
        ∧ dropCount (⟨[("T", 1)], [⟨"T", "t1", 0, 100⟩], [], 0⟩ : GradeCalculator)
            "T"
          < (((⟨[("T", 1)], [⟨"T", "t1", 0, 100⟩], [], 0⟩ :
            GradeCalculator).categoryGrades "T").length : ℤ) + 1)
      ∧ (∀ X : ℚ, 0 ≤ X → X ≤ 100 → ∀ o : ℚ,
          ({ (⟨[("T", 1)], [⟨"T", "t1", 0, 100⟩], [], 0⟩ : GradeCalculator) with
            grades := (⟨[("T", 1)], [⟨"T", "t1", 0, 100⟩], [], 0⟩ :
              GradeCalculator).grades ++ [⟨"T", "next", X, 100⟩] } :
            GradeCalculator).rawOverall = some o → o < 200)
      ∧ 100 < rawRequired (⟨[("T", 1)], [⟨"T", "t1", 0, 100⟩], [], 0⟩ :
          GradeCalculator) 200 "T" 100
      ∧ ((⟨[("T", 1)], [⟨"T", "t1", 0, 100⟩], [], 0⟩ :
          GradeCalculator).requiredScore 200 "T" 100).achievable = false := by
  have hndp : (((⟨[("T", 1)], [⟨"T", "t1", 0, 100⟩], [], 0⟩ :
      GradeCalculator).categories).map Prod.fst).Nodup := by simp
  have hmem : ("T", (1 : ℚ)) ∈ (⟨[("T", 1)], [⟨"T", "t1", 0, 100⟩], [], 0⟩ :
      GradeCalculator).categories := by simp
  have hnb : ¬(0 < dropCount (⟨[("T", 1)], [⟨"T", "t1", 0, 100⟩], [], 0⟩ :
        GradeCalculator) "T"
      ∧ dropCount (⟨[("T", 1)], [⟨"T", "t1", 0, 100⟩], [], 0⟩ : GradeCalculator)
          "T"
        < (((⟨[("T", 1)], [⟨"T", "t1", 0, 100⟩], [], 0⟩ :
          GradeCalculator).categoryGrades "T").length : ℤ) + 1) := by
    norm_num [dropCount, List.lookup]
  have hot : otherTotals (⟨[("T", 1)], [⟨"T", "t1", 0, 100⟩], [], 0⟩ :
      GradeCalculator) "T" = (0, 0) := by
    rw [otherTotals_eq]
    simp
  have hS : sumScores ((⟨[("T", 1)], [⟨"T", "t1", 0, 100⟩], [], 0⟩ :
      GradeCalculator).categoryGrades "T") = 0 := by
    norm_num [GradeCalculator.categoryGrades, catFilter, sortByPct, ordInsert,
      sumScores]
  have hM : sumMaxes ((⟨[("T", 1)], [⟨"T", "t1", 0, 100⟩], [], 0⟩ :
      GradeCalculator).categoryGrades "T") = 100 := by
    norm_num [GradeCalculator.categoryGrades, catFilter, sortByPct, ordInsert,
      sumMaxes]
  have hMm : (0 : ℚ) < sumMaxes ((⟨[("T", 1)], [⟨"T", "t1", 0, 100⟩], [], 0⟩ :
      GradeCalculator).categoryGrades "T") + 100 := by
    rw [hM]
    norm_num
  have hWpos : (0 : ℚ) < (otherTotals (⟨[("T", 1)], [⟨"T", "t1", 0, 100⟩], [], 0⟩ :
      GradeCalculator) "T").2 + 1 := by
    rw [hot]
    norm_num
  have hunreach : ∀ X : ℚ, 0 ≤ X → X ≤ 100 → ∀ o : ℚ,
      ({ (⟨[("T", 1)], [⟨"T", "t1", 0, 100⟩], [], 0⟩ : GradeCalculator) with
        grades := (⟨[("T", 1)], [⟨"T", "t1", 0, 100⟩], [], 0⟩ :
          GradeCalculator).grades ++ [⟨"T", "next", X, 100⟩] } :
        GradeCalculator).rawOverall = some o → o < 200 := by
    intro X hX0 hX1 o ho
    have hco := candidate_rawOverall (⟨[("T", 1)], [⟨"T", "t1", 0, 100⟩], [], 0⟩ :
      GradeCalculator) "T" "next" X 100 1 hndp hmem hnb (ne_of_gt hMm) hWpos
    rw [hot, hS, hM] at hco
    rw [hco] at ho
    have hinj := Option.some.inj ho
    rw [← hinj]
    norm_num
    linarith
  refine ⟨hnb, hunreach, ?_, ?_⟩
  · exact (requiredScore_unreachable_no_drop _ 200 "T" 100 1 hndp hmem
      (by norm_num) (by norm_num) hMm hWpos hnb hunreach).1
  · exact (requiredScore_unreachable_no_drop _ 200 "T" 100 1 hndp hmem
      (by norm_num) (by norm_num) hMm hWpos hnb hunreach).2

theorem otherTotals_weight_nonneg (s : GradeCalculator) (c : String)
    (hwnn : ∀ p ∈ s.categories, 0 ≤ p.2) : 0 ≤ (otherTotals s c).2 := by
  rw [otherTotals_eq]
  dsimp only
  apply List.sum_nonneg
  intro x hx
  obtain ⟨p, hp, rfl⟩ := List.mem_map.mp hx
  have hp2 := hwnn p (List.mem_of_mem_filter hp)
  unfold catUsedWeight
  split
  · exact hp2
  · exact le_refl 0

theorem mem_categoryGrades {s : GradeCalculator} {c : String} {g : GradeRecord}
    (hg : g ∈ s.categoryGrades c) : g ∈ s.grades := by
  unfold GradeCalculator.categoryGrades at hg
  exact List.mem_of_mem_filter ((sortByPct_perm _).mem_iff.mp hg)

/-- C7 (amended): round-trip with the default `max_score = 100` under
nonnegative weights and record maxes.  When no drop-lowest policy is
configured for a positively weighted target category and the returned
(1-decimal-rounded) `required` lies in `[0, 100]`, appending the record
`{score: required, max: 100}` to that category and running `calculate()`
yields an overall within 0.1 percentage points of the target.  (For small
`max_score` the 1-decimal rounding of `required` can shift the overall by far
more than 0.1 — see the counterexample with `max_score = 1`.) -/
theorem requiredScore_roundtrip
    (s : GradeCalculator) (t : ℚ) (c : String) (w : ℚ)
    (hndp : (s.categories.map Prod.fst).Nodup)
    (hmem : (c, w) ∈ s.categories)
    (hw : 0 < w)
    (hwnn : ∀ p ∈ s.categories, 0 ≤ p.2)
    (hgnn : ∀ g ∈ s.grades, 0 ≤ g.max)
    (hnd : dropCount s c ≤ 0)
    (hreq : 0 ≤ roundTo 1 (rawRequired s t c 100)
      ∧ roundTo 1 (rawRequired s t c 100) ≤ 100) :
    ∃ o : ℚ,
      (({ s with grades := s.grades ++
          [⟨c, "next", roundTo 1 (rawRequired s t c 100), 100⟩] } :
          GradeCalculator).calculate).overall = some o
        ∧ |o - t| ≤ 1/10 := by
  have hnb : ¬(0 < dropCount s c ∧
      dropCount s c < ((s.categoryGrades c).length : ℤ) + 1) := by
    intro hcon
    omega
  have hM0 : 0 ≤ sumMaxes (s.categoryGrades c) :=
    sumMaxes_nonneg (fun g hg => hgnn g (mem_categoryGrades hg))
  have hMm : (0 : ℚ) < sumMaxes (s.categoryGrades c) + 100 := by linarith
  have hU0 : 0 ≤ (otherTotals s c).2 := otherTotals_weight_nonneg s c hwnn
  have hWpos : 0 < (otherTotals s c).2 + w := by linarith
  have htw : targetCatWeight s c = w := by
    unfold targetCatWeight
    rw [lookup_of_mem_nodup hndp hmem]
    rfl
  have hraw : rawRequired s t c 100
      = (neededCatAvg s t c / 100) * (sumMaxes (s.categoryGrades c) + 100)
        - sumScores (s.categoryGrades c) := by
    unfold rawRequired
    rw [if_neg hnb]
  have hneed : neededCatAvg s t c
      = (t * ((otherTotals s c).2 + w) - (otherTotals s c).1) / w := by
    unfold neededCatAvg totalWeightFor
    rw [htw]
  have hov := candidate_rawOverall s c "next" (roundTo 1 (rawRequired s t c 100))
    100 w hndp hmem hnb (ne_of_gt hMm) hWpos
  have hcalc : (({ s with grades := s.grades ++
      [⟨c, "next", roundTo 1 (rawRequired s t c 100), 100⟩] } :
      GradeCalculator).calculate).overall
      = some (roundTo 2 (((otherTotals s c).1
          + (sumScores (s.categoryGrades c) + roundTo 1 (rawRequired s t c 100))
            / (sumMaxes (s.categoryGrades c) + 100) * 100 * w)
        / ((otherTotals s c).2 + w))) := by
    rw [calculate_overall_eq_raw, hov]
    rfl
  set R := ((otherTotals s c).1
      + (sumScores (s.categoryGrades c) + roundTo 1 (rawRequired s t c 100))
        / (sumMaxes (s.categoryGrades c) + 100) * 100 * w)
    / ((otherTotals s c).2 + w) with hRdef
  refine ⟨roundTo 2 R, hcalc, ?_⟩
  have hdelta : |roundTo 1 (rawRequired s t c 100) - rawRequired s t c 100|
      ≤ 1/20 := by
    have := abs_roundTo_sub 1 (rawRequired s t c 100)
    norm_num at this
    exact this
  have hRt : R - t = (roundTo 1 (rawRequired s t c 100) - rawRequired s t c 100)
      * (100 * w / ((sumMaxes (s.categoryGrades c) + 100)
        * ((otherTotals s c).2 + w))) := by
    rw [hRdef, hraw, hneed]
    field_simp
    ring
  have hkpos : 0 ≤ 100 * w / ((sumMaxes (s.categoryGrades c) + 100)
      * ((otherTotals s c).2 + w)) := by
    apply div_nonneg
    · linarith
    · positivity
  have hk1 : 100 * w / ((sumMaxes (s.categoryGrades c) + 100)
      * ((otherTotals s c).2 + w)) ≤ 1 := by
    rw [div_le_one (by positivity)]
    nlinarith [mul_nonneg hM0 hU0, mul_nonneg hM0 (le_of_lt hw),
      mul_nonneg (by norm_num : (0:ℚ) ≤ 100) hU0]
  have hRtb : |R - t| ≤ 1/20 := by
    rw [hRt, abs_mul, abs_of_nonneg hkpos]
    calc |roundTo 1 (rawRequired s t c 100) - rawRequired s t c 100|
          * (100 * w / ((sumMaxes (s.categoryGrades c) + 100)
            * ((otherTotals s c).2 + w)))
        ≤ (1/20) * 1 := by
          apply mul_le_mul hdelta hk1 hkpos
          norm_num
      _ = 1/20 := by norm_num
  have hround : |roundTo 2 R - R| ≤ 1/200 := by
    have := abs_roundTo_sub 2 R
    norm_num at this
    exact this
  calc |roundTo 2 R - t| ≤ |roundTo 2 R - R| + |R - t| := abs_sub_le _ _ _
    _ ≤ 1/200 + 1/20 := add_le_add hround hRtb
    _ ≤ 1/10 := by norm_num

/-- Witness for `requiredScore_roundtrip`: one category `"T"` (weight 1) with
an 80/100 record and target 90: `required = 100`, and appending `100/100`
reproduces an overall of exactly 90. -/
theorem requiredScore_roundtrip_witness :
    dropCount (⟨[("T", 1)], [⟨"T", "t1", 80, 100⟩], [], 0⟩ : GradeCalculator) "T" ≤ 0
      ∧ (0 ≤ roundTo 1 (rawRequired (⟨[("T", 1)], [⟨"T", "t1", 80, 100⟩], [], 0⟩ :
            GradeCalculator) 90 "T" 100)
        ∧ roundTo 1 (rawRequired (⟨[("T", 1)], [⟨"T", "t1", 80, 100⟩], [], 0⟩ :
            GradeCalculator) 90 "T" 100) ≤ 100)
      ∧ ∃ o : ℚ,
        (({ (⟨[("T", 1)], [⟨"T", "t1", 80, 100⟩], [], 0⟩ : GradeCalculator) with
          grades := (⟨[("T", 1)], [⟨"T", "t1", 80, 100⟩], [], 0⟩ :
            GradeCalculator).grades ++
            [⟨"T", "next", roundTo 1 (rawRequired (⟨[("T", 1)],
              [⟨"T", "t1", 80, 100⟩], [], 0⟩ : GradeCalculator) 90 "T" 100),
              100⟩] } : GradeCalculator).calculate).overall = some o
          ∧ |o - 90| ≤ 1/10 := by
  have hnd : dropCount (⟨[("T", 1)], [⟨"T", "t1", 80, 100⟩], [], 0⟩ :
      GradeCalculator) "T" ≤ 0 := by
    norm_num [dropCount, List.lookup]
  have hv : rawRequired (⟨[("T", 1)], [⟨"T", "t1", 80, 100⟩], [], 0⟩ :
      GradeCalculator) 90 "T" 100 = 100 := by
    norm_num [rawRequired, neededCatAvg, totalWeightFor, targetCatWeight,
      otherTotals_eq, dropCount, List.lookup, GradeCalculator.categoryGrades,
      catFilter, sortByPct, ordInsert, sumScores, sumMaxes]
  have hround : roundTo 1 (rawRequired (⟨[("T", 1)], [⟨"T", "t1", 80, 100⟩], [], 0⟩ :
      GradeCalculator) 90 "T" 100) = 100 := by
    rw [hv]
    norm_num [roundTo, rndInt]
  have hreq : 0 ≤ roundTo 1 (rawRequired (⟨[("T", 1)], [⟨"T", "t1", 80, 100⟩], [], 0⟩ :
        GradeCalculator) 90 "T" 100)
      ∧ roundTo 1 (rawRequired (⟨[("T", 1)], [⟨"T", "t1", 80, 100⟩], [], 0⟩ :
        GradeCalculator) 90 "T" 100) ≤ 100 := by
    rw [hround]
    norm_num
  exact ⟨hnd, hreq,
    requiredScore_roundtrip (⟨[("T", 1)], [⟨"T", "t1", 80, 100⟩], [], 0⟩ :
        GradeCalculator) 90 "T" 1
      (by simp) (by simp) (by norm_num)
      (by intro p hp; simp at hp; rw [hp]; norm_num)
      (by intro g hg; simp at hg; rw [hg]; norm_num)
      hnd hreq⟩

/-- C7 counterexample: with an empty category `"T"` of weight 1, target 52.4
and `max_score = 1`, the solver returns `required = round(0.524, 1) = 0.5 ∈
[0, 1]`, but appending `{score: 0.5, max: 1}` gives an overall of 50 —
2.4 percentage points away from the target, far beyond the claimed ±0.1
tolerance. -/
theorem requiredScore_roundtrip_counterexample :
    dropCount (⟨[("T", 1)], [], [], 0⟩ : GradeCalculator) "T" ≤ 0
      ∧ targetCatWeight (⟨[("T", 1)], [], [], 0⟩ : GradeCalculator) "T" = 1
      ∧ ((⟨[("T", 1)], [], [], 0⟩ : GradeCalculator).requiredScore (262/5) "T"
          1).required = some (1/2)
      ∧ ((0 : ℚ) ≤ 1/2 ∧ (1/2 : ℚ) ≤ 1)
      ∧ ((⟨[("T", 1)], [⟨"T", "next", 1/2, 1⟩], [], 0⟩ :
          GradeCalculator).calculate).overall = some 50
      ∧ ¬(|(50 : ℚ) - 262/5| ≤ 1/10) := by
  have hnd : dropCount (⟨[("T", 1)], [], [], 0⟩ : GradeCalculator) "T" ≤ 0 := by
    norm_num [dropCount, List.lookup]
  have htw : targetCatWeight (⟨[("T", 1)], [], [], 0⟩ : GradeCalculator) "T" = 1 := by
    norm_num [targetCatWeight, List.lookup]
  have hWne : totalWeightFor (⟨[("T", 1)], [], [], 0⟩ : GradeCalculator) "T" ≠ 0 := by
    norm_num [totalWeightFor, otherTotals_eq, targetCatWeight, List.lookup]
  have hv : rawRequired (⟨[("T", 1)], [], [], 0⟩ : GradeCalculator) (262/5) "T" 1
      = 262/500 := by
    norm_num [rawRequired, neededCatAvg, totalWeightFor, targetCatWeight,
      otherTotals_eq, dropCount, List.lookup, GradeCalculator.categoryGrades,
      catFilter, sortByPct, ordInsert, sumScores, sumMaxes]
  have hreq : ((⟨[("T", 1)], [], [], 0⟩ : GradeCalculator).requiredScore (262/5) "T"
      1).required = some (1/2) := by
    rw [requiredScore_of_ok _ (262/5) "T" 1 hWne (by rw [htw]; norm_num)]
    dsimp only
    rw [hv]
    norm_num [roundTo, rndInt]
  have havg : (⟨[("T", 1)], [⟨"T", "next", 1/2, 1⟩], [], 0⟩ :
      GradeCalculator).categoryAverage "T" [] = some 50 := by
    norm_num [GradeCalculator.categoryAverage, GradeCalculator.categoryGrades,
      catFilter, sortByPct, ordInsert, pctKey, dropCount, sumScores, sumMaxes,
      List.lookup]
  have hoverall : ((⟨[("T", 1)], [⟨"T", "next", 1/2, 1⟩], [], 0⟩ :
      GradeCalculator).calculate).overall = some 50 := by
    rw [calculate_eq]
    norm_num [weightedSumOf, weightUsedOf, catContrib, catUsedWeight, havg,
      roundTo, rndInt]
  refine ⟨hnd, htw, hreq, by norm_num, hoverall, ?_⟩
  rw [abs_of_nonpos (by norm_num)]
  norm_num

/-! ### Stable insertion position of an appended record -/

theorem takeWhile_append_of_all {p : GradeRecord → Bool} {T : List GradeRecord}
    (D : List GradeRecord) (hT : ∀ b ∈ T, p b = true) :
    (T ++ D).takeWhile p = T ++ D.takeWhile p := by
  induction T with
  | nil => simp
  | cons a T ih =>
    rw [List.cons_append, List.takeWhile_cons, hT a (List.mem_cons_self a T),
      ih (fun b hb => hT b (List.mem_cons_of_mem a hb))]
    rfl

theorem dropWhile_append_of_all {p : GradeRecord → Bool} {T : List GradeRecord}
    (D : List GradeRecord) (hT : ∀ b ∈ T, p b = true) :
    (T ++ D).dropWhile p = D.dropWhile p := by
  induction T with
  | nil => simp
  | cons a T ih =>
    rw [List.cons_append, List.dropWhile_cons, hT a (List.mem_cons_self a T),
      ih (fun b hb => hT b (List.mem_cons_of_mem a hb))]
    rfl

theorem takeWhile_eq_nil_of_all {p : GradeRecord → Bool} {D : List GradeRecord}
    (hD : ∀ b ∈ D, p b = false) : D.takeWhile p = [] := by
  cases D with
  | nil => rfl
  | cons d D =>
    rw [List.takeWhile_cons, hD d (List.mem_cons_self d D)]
    rfl

theorem dropWhile_eq_self_of_all {p : GradeRecord → Bool} {D : List GradeRecord}
    (hD : ∀ b ∈ D, p b = false) : D.dropWhile p = D := by
  cases D with
  | nil => rfl
  | cons d D =>
    rw [List.dropWhile_cons, hD d (List.mem_cons_self d D)]
    rfl

theorem ordInsert_of_all_lt {x : GradeRecord} {D : List GradeRecord}
    (hD : ∀ b ∈ D, ¬(pctKey b ≤ pctKey x)) : ordInsert x D = x :: D := by
  cases D with
  | nil => rfl
  | cons d D =>
    rw [ordInsert, if_pos ?_]
    have := hD d (List.mem_cons_self d D)
    push_neg at this
    linarith

theorem mem_ordInsert_iff {y x : GradeRecord} {l : List GradeRecord} :
    y ∈ ordInsert x l ↔ y = x ∨ y ∈ l := by
  rw [(ordInsert_perm x l).mem_iff, List.mem_cons]

theorem ordInsert_insert_middle (x h : GradeRecord) :
    ∀ (T D : List GradeRecord), (∀ b ∈ T, pctKey b ≤ pctKey h) →
      (∀ b ∈ D, ¬(pctKey b ≤ pctKey h)) →
      ordInsert x (T ++ h :: D)
        = (ordInsert x (T ++ D)).takeWhile (fun b => decide (pctKey b ≤ pctKey h))
          ++ h :: (ordInsert x (T ++ D)).dropWhile
              (fun b => decide (pctKey b ≤ pctKey h)) := by
  intro T
  induction T with
  | nil =>
    intro D hT hD
    simp only [List.nil_append]
    by_cases hxh : pctKey x ≤ pctKey h
    · have hDx : ∀ b ∈ D, ¬(pctKey b ≤ pctKey x) :=
        fun b hb hle => hD b hb (le_trans hle hxh)
      rw [ordInsert, if_pos hxh, ordInsert_of_all_lt hDx]
      rw [List.takeWhile_cons, decide_eq_true hxh,
        takeWhile_eq_nil_of_all (fun b hb => decide_eq_false (hD b hb)),
        List.dropWhile_cons, decide_eq_true hxh,
        dropWhile_eq_self_of_all (fun b hb => decide_eq_false (hD b hb))]
      simp
    · rw [ordInsert, if_neg hxh]
      have hall : ∀ b ∈ ordInsert x D, decide (pctKey b ≤ pctKey h) = false := by
        intro b hb
        rcases mem_ordInsert_iff.mp hb with rfl | hb
        · exact decide_eq_false hxh
        · exact decide_eq_false (hD b hb)
      rw [takeWhile_eq_nil_of_all hall, dropWhile_eq_self_of_all hall]
      rfl
  | cons a T ih =>
    intro D hT hD
    have hah : pctKey a ≤ pctKey h := hT a (List.mem_cons_self a T)
    have hT' : ∀ b ∈ T, pctKey b ≤ pctKey h :=
      fun b hb => hT b (List.mem_cons_of_mem a hb)
    by_cases hxa : pctKey x ≤ pctKey a
    · rw [List.cons_append, ordInsert, if_pos hxa,
        List.cons_append, ordInsert, if_pos hxa]
      have hxh : pctKey x ≤ pctKey h := le_trans hxa hah
      rw [List.takeWhile_cons, decide_eq_true hxh, List.takeWhile_cons,
        decide_eq_true hah,
        takeWhile_append_of_all D (fun b hb => decide_eq_true (hT' b hb)),
        takeWhile_eq_nil_of_all (fun b hb => decide_eq_false (hD b hb)),
        List.dropWhile_cons, decide_eq_true hxh, List.dropWhile_cons,
        decide_eq_true hah,
        dropWhile_append_of_all D (fun b hb => decide_eq_true (hT' b hb)),
        dropWhile_eq_self_of_all (fun b hb => decide_eq_false (hD b hb))]
      simp
    · rw [List.cons_append, ordInsert, if_neg hxa,
        List.cons_append, ordInsert, if_neg hxa]
      rw [ih D hT' hD]
      rw [List.takeWhile_cons, decide_eq_true hah, List.dropWhile_cons,
        decide_eq_true hah]
      rfl

theorem dropWhile_pct_gt {h : GradeRecord} {L : List GradeRecord}
    (hs : L.Pairwise (fun a b => pctKey a ≤ pctKey b)) :
    ∀ b ∈ L.dropWhile (fun b => decide (pctKey b ≤ pctKey h)),
      ¬(pctKey b ≤ pctKey h) := by
  induction L with
  | nil => intro b hb; cases hb
  | cons a L ih =>
    rw [List.pairwise_cons] at hs
    intro b hb
    rw [List.dropWhile_cons] at hb
    by_cases hca : pctKey a ≤ pctKey h
    · simp only [decide_eq_true hca, if_true] at hb
      exact ih hs.2 b hb
    · simp only [decide_eq_false hca, Bool.false_eq_true, if_false] at hb
      rcases List.mem_cons.mp hb with rfl | hb
      · exact hca
      · intro hcon
        exact hca (le_trans (hs.1 b hb) hcon)

theorem mem_takeWhile_pct {h : GradeRecord} {L : List GradeRecord} :
    ∀ b ∈ L.takeWhile (fun b => decide (pctKey b ≤ pctKey h)),
      pctKey b ≤ pctKey h := by
  intro b hb
  have := List.mem_takeWhile_imp hb
  simpa using this

theorem sortByPct_append_single (X : List GradeRecord) (h : GradeRecord) :
    sortByPct (X ++ [h])
      = (sortByPct X).takeWhile (fun b => decide (pctKey b ≤ pctKey h))
        ++ h :: (sortByPct X).dropWhile (fun b => decide (pctKey b ≤ pctKey h)) := by
  induction X with
  | nil => rfl
  | cons x X ih =>
    show ordInsert x (sortByPct (X ++ [h])) = _
    rw [ih]
    rw [ordInsert_insert_middle x h _ _ mem_takeWhile_pct
      (dropWhile_pct_gt (sortByPct_pairwise X))]
    rw [List.takeWhile_append_dropWhile]
    rfl

theorem mediant_ge {S M sh mh : ℚ} (hM : 0 < M) (hmh : 0 < mh)
    (hp : S / M ≤ sh / mh) : S / M ≤ (S + sh) / (M + mh) := by
  rw [div_le_div_iff hM hmh] at hp
  rw [div_le_div_iff hM (by linarith)]
  nlinarith

theorem mediant_le {S M sh mh : ℚ} (hM : 0 < M) (hmh : 0 < mh)
    (hp : sh / mh ≤ S / M) : (S + sh) / (M + mh) ≤ S / M := by
  rw [div_le_div_iff hmh hM] at hp
  rw [div_le_div_iff (by linarith) hM]
  nlinarith

theorem sum_ratio_ge (K : List GradeRecord) (B : ℚ)
    (hmax : ∀ g ∈ K, 0 < g.max) (hge : ∀ g ∈ K, B ≤ pctKey g) :
    B * sumMaxes K ≤ sumScores K := by
  induction K with
  | nil => simp [sumScores, sumMaxes]
  | cons g K ih =>
    have h1 : B ≤ pctKey g := hge g (List.mem_cons_self g K)
    have h2 : 0 < g.max := hmax g (List.mem_cons_self g K)
    have h3 : B * g.max ≤ g.score := by
      have hpk : pctKey g = g.score / g.max := by
        unfold pctKey
        rw [if_pos h2]
      rw [hpk] at h1
      exact (le_div_iff h2).mp h1
    have h4 := ih (fun x hx => hmax x (List.mem_cons_of_mem g hx))
      (fun x hx => hge x (List.mem_cons_of_mem g hx))
    unfold sumScores sumMaxes at *
    simp only [List.map_cons, List.sum_cons]
    nlinarith

theorem sum_ratio_le (K : List GradeRecord) (B : ℚ)
    (hmax : ∀ g ∈ K, 0 < g.max) (hle : ∀ g ∈ K, pctKey g ≤ B) :
    sumScores K ≤ B * sumMaxes K := by
  induction K with
  | nil => simp [sumScores, sumMaxes]
  | cons g K ih =>
    have h1 : pctKey g ≤ B := hle g (List.mem_cons_self g K)
    have h2 : 0 < g.max := hmax g (List.mem_cons_self g K)
    have h3 : g.score ≤ B * g.max := by
      have hpk : pctKey g = g.score / g.max := by
        unfold pctKey
        rw [if_pos h2]
      rw [hpk] at h1
      exact (div_le_iff h2).mp h1
    have h4 := ih (fun x hx => hmax x (List.mem_cons_of_mem g hx))
      (fun x hx => hle x (List.mem_cons_of_mem g hx))
    unfold sumScores sumMaxes at *
    simp only [List.map_cons, List.sum_cons]
    nlinarith

theorem sumMaxes_pos {K : List GradeRecord} (hne : K ≠ [])
    (hmax : ∀ g ∈ K, 0 < g.max) : 0 < sumMaxes K := by
  cases K with
  | nil => exact absurd rfl hne
  | cons g K =>
    have h1 := hmax g (List.mem_cons_self g K)
    have h2 : 0 ≤ sumMaxes K :=
      sumMaxes_nonneg (fun x hx => le_of_lt (hmax x (List.mem_cons_of_mem g hx)))
    unfold sumMaxes at *
    simp only [List.map_cons, List.sum_cons]
    linarith

theorem sorted_take_drop_le {l : List GradeRecord}
    (hs : l.Pairwise (fun a b => pctKey a ≤ pctKey b)) (k : ℕ) :
    ∀ x ∈ l.take k, ∀ y ∈ l.drop k, pctKey x ≤ pctKey y := by
  have hsplit : l.take k ++ l.drop k = l := List.take_append_drop k l
  rw [← hsplit] at hs
  have hp := List.pairwise_append.mp hs
  exact fun x hx y hy => hp.2.2 x hx y hy

theorem takeWhile_length_ge {p : GradeRecord → Bool} :
    ∀ (l : List GradeRecord) (n : ℕ), n ≤ l.length →
      (∀ x ∈ l.take n, p x = true) → n ≤ (l.takeWhile p).length := by
  intro l
  induction l with
  | nil =>
    intro n hn _
    simpa using hn
  | cons a l ih =>
    intro n hn hall
    cases n with
    | zero => simp
    | succ n =>
      have hpa : p a = true := by
        apply hall a
        rw [List.take_succ_cons]
        exact List.mem_cons_self a _
      rw [List.takeWhile_cons, hpa]
      simp only [List.length_cons]
      have hrec := ih n (by simpa using hn)
        (fun x hx => hall x (by rw [List.take_succ_cons]; exact List.mem_cons_of_mem a hx))
      simpa using Nat.succ_le_succ hrec

theorem drop_append_le {α : Type} :
    ∀ (T R : List α) (n : ℕ), n ≤ T.length →
      (T ++ R).drop n = T.drop n ++ R := by
  intro T
  induction T with
  | nil =>
    intro R n hn
    simp at hn
    simp [hn]
  | cons a T ih =>
    intro R n hn
    cases n with
    | zero => simp
    | succ n =>
      rw [List.cons_append, List.drop_succ_cons, List.drop_succ_cons]
      exact ih R n (by simpa using hn)

theorem drop_append_ge {α : Type} :
    ∀ (T R : List α) (n : ℕ), T.length ≤ n →
      (T ++ R).drop n = R.drop (n - T.length) := by
  intro T
  induction T with
  | nil =>
    intro R n _
    simp
  | cons a T ih =>
    intro R n hn
    cases n with
    | zero => simp at hn
    | succ n =>
      rw [List.cons_append, List.drop_succ_cons,
        ih R n (by simpa using hn)]
      congr 1
      simp

theorem drop_eq_head_cons {α : Type} :
    ∀ (l : List α) (j : ℕ) (hj : j < l.length),
      l.drop j = l.get ⟨j, hj⟩ :: l.drop (j + 1) := by
  intro l
  induction l with
  | nil =>
    intro j hj
    simp at hj
  | cons a l ih =>
    intro j hj
    cases j with
    | zero => simp
    | succ j =>
      rw [List.drop_succ_cons, List.drop_succ_cons, ih j (by simpa using hj)]
      rfl

/-- Core monotonicity of the dropped-average in the appended record, for the
exact drop semantics of `_category_average` (drop `n` lowest only when
`0 < n < length`).  Both averages are on the 0–1 scale here. -/
theorem dropAvg_append_mono (X : List GradeRecord) (h : GradeRecord) (n : ℕ)
    (hmaxes : ∀ g ∈ X, 0 < g.max) (hhm : 0 < h.max) (hX : X ≠ []) :
    ((if 0 < n ∧ n < (sortByPct X).length then (sortByPct X).drop n
        else sortByPct X) ≠ []
      ∧ (if 0 < n ∧ n < (sortByPct (X ++ [h])).length
          then (sortByPct (X ++ [h])).drop n else sortByPct (X ++ [h])) ≠ [])
    ∧ (∀ g ∈ (if 0 < n ∧ n < (sortByPct X).length then (sortByPct X).drop n
        else sortByPct X), 0 < g.max)
    ∧ (∀ g ∈ (if 0 < n ∧ n < (sortByPct (X ++ [h])).length
        then (sortByPct (X ++ [h])).drop n else sortByPct (X ++ [h])), 0 < g.max)
    ∧ (sumScores (if 0 < n ∧ n < (sortByPct X).length then (sortByPct X).drop n
          else sortByPct X)
        / sumMaxes (if 0 < n ∧ n < (sortByPct X).length then (sortByPct X).drop n
          else sortByPct X) ≤ pctKey h →
        sumScores (if 0 < n ∧ n < (sortByPct X).length then (sortByPct X).drop n
          else sortByPct X)
        / sumMaxes (if 0 < n ∧ n < (sortByPct X).length then (sortByPct X).drop n
          else sortByPct X)
        ≤ sumScores (if 0 < n ∧ n < (sortByPct (X ++ [h])).length
          then (sortByPct (X ++ [h])).drop n else sortByPct (X ++ [h]))
          / sumMaxes (if 0 < n ∧ n < (sortByPct (X ++ [h])).length
            then (sortByPct (X ++ [h])).drop n else sortByPct (X ++ [h])))
    ∧ (pctKey h ≤ sumScores (if 0 < n ∧ n < (sortByPct X).length
          then (sortByPct X).drop n else sortByPct X)
        / sumMaxes (if 0 < n ∧ n < (sortByPct X).length then (sortByPct X).drop n
          else sortByPct X) →
        n ≠ (sortByPct X).length →
        sumScores (if 0 < n ∧ n < (sortByPct (X ++ [h])).length
          then (sortByPct (X ++ [h])).drop n else sortByPct (X ++ [h]))
          / sumMaxes (if 0 < n ∧ n < (sortByPct (X ++ [h])).length
            then (sortByPct (X ++ [h])).drop n else sortByPct (X ++ [h]))
        ≤ sumScores (if 0 < n ∧ n < (sortByPct X).length then (sortByPct X).drop n
            else sortByPct X)
          / sumMaxes (if 0 < n ∧ n < (sortByPct X).length then (sortByPct X).drop n
            else sortByPct X)) := by
  set l := sortByPct X with hldef
  set l2 := sortByPct (X ++ [h]) with hl2def
  set K := if 0 < n ∧ n < l.length then l.drop n else l with hKdef
  set K2 := if 0 < n ∧ n < l2.length then l2.drop n else l2 with hK2def
  have hlperm : List.Perm l X := sortByPct_perm X
  have hl2perm : List.Perm l2 (X ++ [h]) := sortByPct_perm (X ++ [h])
  have hllen : l.length = X.length := hlperm.length_eq
  have hl2len : l2.length = l.length + 1 := by
    rw [hl2perm.length_eq, List.length_append, hllen]
    rfl
  have hlmax : ∀ g ∈ l, 0 < g.max := fun g hg => hmaxes g (hlperm.mem_iff.mp hg)
  have hl2max : ∀ g ∈ l2, 0 < g.max := by
    intro g hg
    rcases List.mem_append.mp (hl2perm.mem_iff.mp hg) with hg | hg
    · exact hmaxes g hg
    · rw [List.mem_singleton.mp hg]
      exact hhm
  have hlne : l ≠ [] := by
    rw [hldef, Ne, sortByPct_eq_nil_iff]
    exact hX
  have hl2ne : l2 ≠ [] := by
    rw [hl2def, Ne, sortByPct_eq_nil_iff]
    simp
  have hKsub : ∀ g ∈ K, g ∈ l := by
    intro g hg
    rw [hKdef] at hg
    split at hg
    · exact List.mem_of_mem_drop hg
    · exact hg
  have hK2sub : ∀ g ∈ K2, g ∈ l2 := by
    intro g hg
    rw [hK2def] at hg
    split at hg
    · exact List.mem_of_mem_drop hg
    · exact hg
  have hKmax : ∀ g ∈ K, 0 < g.max := fun g hg => hlmax g (hKsub g hg)
  have hK2max : ∀ g ∈ K2, 0 < g.max := fun g hg => hl2max g (hK2sub g hg)
  have hKne : K ≠ [] := by
    rw [hKdef]
    split
    · rename_i hc
      have : (l.drop n).length = l.length - n := List.length_drop n l
      intro hcon
      rw [hcon] at this
      simp at this
      omega
    · exact hlne
  have hK2ne : K2 ≠ [] := by
    rw [hK2def]
    split
    · rename_i hc
      have : (l2.drop n).length = l2.length - n := List.length_drop n l2
      intro hcon
      rw [hcon] at this
      simp at this
      omega
    · exact hl2ne
  have hKM : 0 < sumMaxes K := sumMaxes_pos hKne hKmax
  have hK2M : 0 < sumMaxes K2 := sumMaxes_pos hK2ne hK2max
  have hsl : l.Pairwise (fun a b => pctKey a ≤ pctKey b) := by
    rw [hldef]
    exact sortByPct_pairwise X
  have hsl2 : l2.Pairwise (fun a b => pctKey a ≤ pctKey b) := by
    rw [hl2def]
    exact sortByPct_pairwise (X ++ [h])
  set T := l.takeWhile (fun b => decide (pctKey b ≤ pctKey h)) with hTdef
  set D := l.dropWhile (fun b => decide (pctKey b ≤ pctKey h)) with hDdef
  have hchar : l2 = T ++ h :: D := by
    rw [hl2def, hTdef, hDdef, hldef]
    exact sortByPct_append_single X h
  have hTD : T ++ D = l := by
    rw [hTdef, hDdef]
    exact List.takeWhile_append_dropWhile _ _
  have hpk : pctKey h = h.score / h.max := by
    unfold pctKey
    rw [if_pos hhm]
  have hSsum : sumScores l2 = sumScores l + h.score := by
    rw [sumScores_perm hl2perm, sumScores_append, sumScores_perm hlperm]
    simp [sumScores]
  have hMsum : sumMaxes l2 = sumMaxes l + h.max := by
    rw [sumMaxes_perm hl2perm, sumMaxes_append, sumMaxes_perm hlperm]
    simp [sumMaxes]
  refine ⟨⟨hKne, hK2ne⟩, hKmax, hK2max, ?_, ?_⟩
  · -- above direction
    intro havg
    by_cases hc2 : 0 < n ∧ n < l2.length
    · have hKeq2 : K2 = l2.drop n := by rw [hK2def, if_pos hc2]
      by_cases hnl : n < l.length
      · -- 0 < n < l.length : both sides drop n, and |T| ≥ n
        have hc1 : 0 < n ∧ n < l.length := ⟨hc2.1, hnl⟩
        have hKeq : K = l.drop n := by rw [hKdef, if_pos hc1]
        have hTn : n ≤ T.length := by
          rw [hTdef]
          apply takeWhile_length_ge l n (le_of_lt hnl)
          intro x hx
          have hxy : ∀ y ∈ l.drop n, pctKey x ≤ pctKey y :=
            sorted_take_drop_le hsl n x hx
          have h1 : pctKey x * sumMaxes (l.drop n) ≤ sumScores (l.drop n) :=
            sum_ratio_ge (l.drop n) (pctKey x)
              (fun g hg => hlmax g (List.mem_of_mem_drop hg)) hxy
          have hMd : 0 < sumMaxes (l.drop n) := by rw [← hKeq]; exact hKM
          have h2 : pctKey x ≤ sumScores (l.drop n) / sumMaxes (l.drop n) :=
            (le_div_iff hMd).mpr h1
          have h3 : pctKey x ≤ pctKey h := by
            refine le_trans h2 ?_
            rw [← hKeq]
            exact havg
          simpa using h3
        have hK2dec : K2 = T.drop n ++ h :: D := by
          rw [hKeq2, hchar, drop_append_le T (h :: D) n hTn]
        have hKdec : K = T.drop n ++ D := by
          rw [hKeq, ← hTD, drop_append_le T D n hTn]
        have hS : sumScores K2 = sumScores K + h.score := by
          rw [hK2dec, hKdec, sumScores_append, sumScores_append]
          unfold sumScores
          simp only [List.map_cons, List.sum_cons]
          ring
        have hM : sumMaxes K2 = sumMaxes K + h.max := by
          rw [hK2dec, hKdec, sumMaxes_append, sumMaxes_append]
          unfold sumMaxes
          simp only [List.map_cons, List.sum_cons]
          ring
        rw [hS, hM]
        refine mediant_ge hKM hhm ?_
        rw [← hpk]
        exact havg
      · -- n = l.length : the single survivor is a maximal element
        have hKl : K = l := by
          rw [hKdef, if_neg]
          intro hcc
          exact hnl hcc.2
        have hK2len1 : K2.length = 1 := by
          rw [hKeq2, List.length_drop]
          omega
        obtain ⟨g, hg⟩ := List.length_eq_one.mp hK2len1
        have hgK2 : g ∈ K2 := by rw [hg]; exact List.mem_singleton_self g
        have hgd : g ∈ l2.drop n := by rw [← hKeq2]; exact hgK2
        have hgm : 0 < g.max := hK2max g hgK2
        have hall : ∀ x ∈ l, pctKey x ≤ pctKey g := by
          intro x hx
          have hx2 : x ∈ l2 := by
            rw [hchar]
            rw [← hTD] at hx
            rcases List.mem_append.mp hx with hx | hx
            · exact List.mem_append.mpr (Or.inl hx)
            · exact List.mem_append.mpr (Or.inr (List.mem_cons_of_mem h hx))
          rw [← List.take_append_drop n l2] at hx2
          rcases List.mem_append.mp hx2 with hx2 | hx2
          · exact sorted_take_drop_le hsl2 n x hx2 g hgd
          · rw [← hKeq2, hg] at hx2
            rw [List.mem_singleton.mp hx2]
        have hMl : 0 < sumMaxes l := by rw [← hKl]; exact hKM
        have h1 : sumScores l ≤ pctKey g * sumMaxes l :=
          sum_ratio_le l (pctKey g) hlmax hall
        have h2 : sumScores l / sumMaxes l ≤ pctKey g := (div_le_iff hMl).mpr h1
        have h3 : sumScores K2 / sumMaxes K2 = pctKey g := by
          rw [hg]
          unfold sumScores sumMaxes pctKey
          rw [if_pos hgm]
          simp
        rw [hKl, h3]
        exact h2
    · -- no drop on either side: plain mediant
      have hcl : ¬(0 < n ∧ n < l.length) := by
        intro hcc
        exact hc2 ⟨hcc.1, by omega⟩
      have hKl : K = l := by rw [hKdef, if_neg hcl]
      have hK2l : K2 = l2 := by rw [hK2def, if_neg hc2]
      rw [hKl, hK2l, hSsum, hMsum]
      have hMl : 0 < sumMaxes l := by rw [← hKl]; exact hKM
      refine mediant_ge hMl hhm ?_
      rw [← hpk, ← hKl]
      exact havg
  · -- below direction
    intro havg hne
    by_cases hc2 : 0 < n ∧ n < l2.length
    · have hnl : n < l.length := by omega
      have hc1 : 0 < n ∧ n < l.length := ⟨hc2.1, hnl⟩
      have hKeq : K = l.drop n := by rw [hKdef, if_pos hc1]
      have hKeq2 : K2 = l2.drop n := by rw [hK2def, if_pos hc2]
      by_cases hTn : n ≤ T.length
      · -- |T| ≥ n : kept set gains exactly h
        have hK2dec : K2 = T.drop n ++ h :: D := by
          rw [hKeq2, hchar, drop_append_le T (h :: D) n hTn]
        have hKdec : K = T.drop n ++ D := by
          rw [hKeq, ← hTD, drop_append_le T D n hTn]
        have hS : sumScores K2 = sumScores K + h.score := by
          rw [hK2dec, hKdec, sumScores_append, sumScores_append]
          unfold sumScores
          simp only [List.map_cons, List.sum_cons]
          ring
        have hM : sumMaxes K2 = sumMaxes K + h.max := by
          rw [hK2dec, hKdec, sumMaxes_append, sumMaxes_append]
          unfold sumMaxes
          simp only [List.map_cons, List.sum_cons]
          ring
        rw [hS, hM]
        refine mediant_le hKM hhm ?_
        rw [← hpk]
        exact havg
      · -- |T| < n : kept set gains the element of D just below the cut
        have hTlt : T.length < n := by omega
        have hDlen : T.length + D.length = l.length := by
          rw [← hTD]
          simp
        set j := n - T.length - 1 with hjdef
        have hjn : n - T.length = j + 1 := by omega
        have hj : j < D.length := by omega
        have hKd : K = D.drop (j + 1) := by
          rw [hKeq, ← hTD, drop_append_ge T D n (le_of_lt hTlt), hjn]
        have hK2cons : K2 = D.get ⟨j, hj⟩ :: K := by
          rw [hKeq2, hchar, drop_append_ge T (h :: D) n (le_of_lt hTlt), hjn,
            List.drop_succ_cons, drop_eq_head_cons D j hj, hKd]
        have hDsorted : D.Pairwise (fun a b => pctKey a ≤ pctKey b) := by
          have hsl' := hsl
          rw [← hTD] at hsl'
          exact (List.pairwise_append.mp hsl').2.1
        have hdmem : D.get ⟨j, hj⟩ ∈ l := by
          rw [← hTD]
          exact List.mem_append.mpr (Or.inr (D.get_mem j hj))
        have hdm : 0 < (D.get ⟨j, hj⟩).max := hlmax _ hdmem
        have hdle : ∀ y ∈ K, pctKey (D.get ⟨j, hj⟩) ≤ pctKey y := by
          have hsorted : (D.drop j).Pairwise (fun a b => pctKey a ≤ pctKey b) :=
            List.Pairwise.sublist (List.drop_sublist j D) hDsorted
          rw [drop_eq_head_cons D j hj] at hsorted
          intro y hy
          refine (List.pairwise_cons.mp hsorted).1 y ?_
          rw [← hKd]
          exact hy
        have h1 : pctKey (D.get ⟨j, hj⟩) * sumMaxes K ≤ sumScores K :=
          sum_ratio_ge K (pctKey (D.get ⟨j, hj⟩)) hKmax hdle
        have h2 : pctKey (D.get ⟨j, hj⟩) ≤ sumScores K / sumMaxes K :=
          (le_div_iff hKM).mpr h1
        have hpkd : pctKey (D.get ⟨j, hj⟩)
            = (D.get ⟨j, hj⟩).score / (D.get ⟨j, hj⟩).max := by
          unfold pctKey
          rw [if_pos hdm]
        have hSd : sumScores K2 = sumScores K + (D.get ⟨j, hj⟩).score := by
          rw [hK2cons]
          unfold sumScores
          simp only [List.map_cons, List.sum_cons]
          ring
        have hMd : sumMaxes K2 = sumMaxes K + (D.get ⟨j, hj⟩).max := by
          rw [hK2cons]
          unfold sumMaxes
          simp only [List.map_cons, List.sum_cons]
          ring
        rw [hSd, hMd]
        refine mediant_le hKM hdm ?_
        rw [← hpkd]
        exact h2
    · -- no drop on either side: plain mediant downwards
      have hcl : ¬(0 < n ∧ n < l.length) := by
        intro hcc
        exact hc2 ⟨hcc.1, by omega⟩
      have hKl : K = l := by rw [hKdef, if_neg hcl]
      have hK2l : K2 = l2 := by rw [hK2def, if_neg hc2]
      have hMl : 0 < sumMaxes l := by rw [← hKl]; exact hKM
      rw [hKl, hK2l, hSsum, hMsum]
      refine mediant_le hMl hhm ?_
      rw [← hpk, ← hKl]
      exact havg

/-- Lifting `dropAvg_append_mono` to `_category_average`: appending one record
of the category (all maxes positive) moves a present average weakly towards
the record's percentage; the downward direction additionally needs the drop
count to differ from the current record count (otherwise appending the record
can activate dropping and raise the average). -/
theorem categoryAverage_append_mono (s : GradeCalculator) (c : String)
    (h : GradeRecord) (hc : h.category = c)
    (hmaxes : ∀ g ∈ catFilter s c, 0 < g.max) (hhm : 0 < h.max)
    (a : ℚ) (ha : s.categoryAverage c [] = some a) :
    ∃ b : ℚ,
      ({ s with grades := s.grades ++ [h] } : GradeCalculator).categoryAverage c []
        = some b
      ∧ (a ≤ pctKey h * 100 → a ≤ b)
      ∧ (pctKey h * 100 ≤ a →
          dropCount s c ≠ ((s.categoryGrades c).length : ℤ) → b ≤ a) := by
  have hmerge1 : mergedGrades s c [] = sortByPct (catFilter s c) := by
    unfold mergedGrades GradeCalculator.categoryGrades
    rw [if_pos rfl]
  have hiff1 : (0 < dropCount s c
        ∧ dropCount s c < ((sortByPct (catFilter s c)).length : ℤ))
      ↔ (0 < (dropCount s c).toNat
        ∧ (dropCount s c).toNat < (sortByPct (catFilter s c)).length) := by
    omega
  have hkept1 : keptGrades s c []
      = if 0 < (dropCount s c).toNat
          ∧ (dropCount s c).toNat < (sortByPct (catFilter s c)).length
        then (sortByPct (catFilter s c)).drop (dropCount s c).toNat
        else sortByPct (catFilter s c) := by
    unfold keptGrades
    rw [hmerge1]
    exact if_congr hiff1 rfl rfl
  have hfil2 : catFilter { s with grades := s.grades ++ [h] } c
      = catFilter s c ++ [h] := catFilter_append_eq s h c hc
  have hmerge2 : mergedGrades { s with grades := s.grades ++ [h] } c []
      = sortByPct (catFilter s c ++ [h]) := by
    unfold mergedGrades GradeCalculator.categoryGrades
    rw [if_pos rfl, hfil2]
  have hiff2 : (0 < dropCount s c
        ∧ dropCount s c < ((sortByPct (catFilter s c ++ [h])).length : ℤ))
      ↔ (0 < (dropCount s c).toNat
        ∧ (dropCount s c).toNat < (sortByPct (catFilter s c ++ [h])).length) := by
    omega
  have hkept2 : keptGrades { s with grades := s.grades ++ [h] } c []
      = if 0 < (dropCount s c).toNat
          ∧ (dropCount s c).toNat < (sortByPct (catFilter s c ++ [h])).length
        then (sortByPct (catFilter s c ++ [h])).drop (dropCount s c).toNat
        else sortByPct (catFilter s c ++ [h]) := by
    unfold keptGrades
    rw [hmerge2]
    exact if_congr hiff2 rfl rfl
  rw [categoryAverage_merged] at ha
  have hXne : catFilter s c ≠ [] := by
    intro hX
    rw [hmerge1, hX] at ha
    simp [sortByPct] at ha
  have hm1ne : mergedGrades s c [] ≠ [] := by
    rw [hmerge1, Ne, sortByPct_eq_nil_iff]
    exact hXne
  rw [if_neg hm1ne] at ha
  rcases eq_or_ne (sumMaxes (keptGrades s c [])) 0 with hM0 | hM0
  · rw [if_pos hM0] at ha
    cases ha
  · rw [if_neg hM0] at ha
    have ha' : a = sumScores (keptGrades s c []) / sumMaxes (keptGrades s c []) * 100 :=
      (Option.some.inj ha).symm
    obtain ⟨⟨hKne, hK2ne⟩, hKmax, hK2max, hG1, hG2⟩ :=
      dropAvg_append_mono (catFilter s c) h (dropCount s c).toNat hmaxes hhm hXne
    rw [← hkept1] at hKne hKmax hG1 hG2
    rw [← hkept2] at hK2ne hK2max hG1 hG2
    have hM1pos : 0 < sumMaxes (keptGrades s c []) := sumMaxes_pos hKne hKmax
    have hM2pos : 0 < sumMaxes (keptGrades { s with grades := s.grades ++ [h] } c []) :=
      sumMaxes_pos hK2ne hK2max
    have hm2ne : mergedGrades { s with grades := s.grades ++ [h] } c [] ≠ [] := by
      rw [hmerge2, Ne, sortByPct_eq_nil_iff]
      simp
    refine ⟨sumScores (keptGrades { s with grades := s.grades ++ [h] } c [])
        / sumMaxes (keptGrades { s with grades := s.grades ++ [h] } c []) * 100,
      ?_, ?_, ?_⟩
    · rw [categoryAverage_merged, if_neg hm2ne, if_neg (ne_of_gt hM2pos)]
    · intro hle
      have h1 : sumScores (keptGrades s c []) / sumMaxes (keptGrades s c [])
          ≤ pctKey h := by
        rw [ha'] at hle
        linarith
      have h2 := hG1 h1
      rw [ha']
      linarith
    · intro hge hne
      have h1 : pctKey h
          ≤ sumScores (keptGrades s c []) / sumMaxes (keptGrades s c []) := by
        rw [ha'] at hge
        linarith
      have hlenpos : 0 < (sortByPct (catFilter s c)).length := by
        rw [sortByPct_length]
        exact List.length_pos.mpr hXne
      have hne' : dropCount s c ≠ ((sortByPct (catFilter s c)).length : ℤ) := hne
      have hnne : (dropCount s c).toNat ≠ (sortByPct (catFilter s c)).length := by
        omega
      have h2 := hG2 h1 hnne
      rw [ha']
      linarith

theorem filtered_contrib_append (s : GradeCalculator) (c : String) (h : GradeRecord)
    (hc : h.category = c) :
    ((s.categories.filter (fun p => !(p.1 == c))).map
        (catContrib { s with grades := s.grades ++ [h] })).sum
      = ((s.categories.filter (fun p => !(p.1 == c))).map (catContrib s)).sum := by
  congr 1
  apply List.map_congr_left
  intro p hp
  have hpc : p.1 ≠ c := by
    have := List.of_mem_filter hp
    simpa using this
  unfold catContrib
  rw [categoryAverage_append_ne s h p.1 (by rw [hc]; exact fun he => hpc he.symm)]

theorem filtered_used_append (s : GradeCalculator) (c : String) (h : GradeRecord)
    (hc : h.category = c) :
    ((s.categories.filter (fun p => !(p.1 == c))).map
        (catUsedWeight { s with grades := s.grades ++ [h] })).sum
      = ((s.categories.filter (fun p => !(p.1 == c))).map (catUsedWeight s)).sum := by
  congr 1
  apply List.map_congr_left
  intro p hp
  have hpc : p.1 ≠ c := by
    have := List.of_mem_filter hp
    simpa using this
  unfold catUsedWeight
  rw [categoryAverage_append_ne s h p.1 (by rw [hc]; exact fun he => hpc he.symm)]

theorem filtered_used_nonneg (s : GradeCalculator) (c : String)
    (hwall : ∀ p ∈ s.categories, 0 ≤ p.2) :
    0 ≤ ((s.categories.filter (fun p => !(p.1 == c))).map (catUsedWeight s)).sum := by
  apply List.sum_nonneg
  intro x hx
  obtain ⟨p, hp, rfl⟩ := List.mem_map.mp hx
  unfold catUsedWeight
  cases hA : s.categoryAverage p.1 [] with
  | none => exact le_refl 0
  | some q => exact hwall p (List.mem_of_mem_filter hp)

/-- C8 (amended): monotone (non-strict) effect of a single hypothetical.  For a
state whose category table has distinct names and nonnegative weights, a
positively weighted target category whose records all have positive max and
whose average is present, and a hypothetical record of that category with
positive max: `what_if` reports present current and projected overalls, the
change is `round(projected - current, 2)`, a hypothetical percentage at or
above the current category average gives `projected >= current` and
`change >= 0`, and one at or below gives `projected <= current` and
`change <= 0` provided the drop count differs from the current record count
(rounding to 2 decimals makes the strict versions of these inequalities fail,
and a drop count equal to the record count can raise the average on a
below-average hypothetical). -/
theorem whatIf_single_hypothetical_mono (s : GradeCalculator) (c : String) (w : ℚ)
    (h : GradeRecord)
    (hnd : (s.categories.map Prod.fst).Nodup)
    (hmem : (c, w) ∈ s.categories)
    (hw : 0 < w)
    (hwall : ∀ p ∈ s.categories, 0 ≤ p.2)
    (hc : h.category = c) (hhm : 0 < h.max)
    (hmaxes : ∀ g ∈ catFilter s c, 0 < g.max)
    (a : ℚ) (ha : s.categoryAverage c [] = some a) :
    ∃ cur proj : ℚ,
      (s.whatIf [h]).current = some cur
      ∧ (s.whatIf [h]).projected = some proj
      ∧ (s.whatIf [h]).change = some (roundTo 2 (proj - cur))
      ∧ (a ≤ pctKey h * 100 → cur ≤ proj ∧ 0 ≤ roundTo 2 (proj - cur))
      ∧ (pctKey h * 100 ≤ a →
          dropCount s c ≠ ((s.categoryGrades c).length : ℤ) →
          proj ≤ cur ∧ roundTo 2 (proj - cur) ≤ 0) := by
  obtain ⟨b, hb, hup, hdown⟩ := categoryAverage_append_mono s c h hc hmaxes hhm a ha
  have hWsum : weightedSumOf s
      = ((s.categories.filter (fun p => !(p.1 == c))).map (catContrib s)).sum
        + catContrib s (c, w) := sum_map_filter_add hnd hmem (catContrib s)
  have hUsum : weightUsedOf s
      = ((s.categories.filter (fun p => !(p.1 == c))).map (catUsedWeight s)).sum
        + catUsedWeight s (c, w) := sum_map_filter_add hnd hmem (catUsedWeight s)
  have hWsum2 : weightedSumOf { s with grades := s.grades ++ [h] }
      = ((s.categories.filter (fun p => !(p.1 == c))).map (catContrib s)).sum
        + catContrib { s with grades := s.grades ++ [h] } (c, w) := by
    rw [← filtered_contrib_append s c h hc]
    exact sum_map_filter_add hnd hmem (catContrib { s with grades := s.grades ++ [h] })
  have hUsum2 : weightUsedOf { s with grades := s.grades ++ [h] }
      = ((s.categories.filter (fun p => !(p.1 == c))).map (catUsedWeight s)).sum
        + catUsedWeight { s with grades := s.grades ++ [h] } (c, w) := by
    rw [← filtered_used_append s c h hc]
    exact sum_map_filter_add hnd hmem (catUsedWeight { s with grades := s.grades ++ [h] })
  have hcb : catContrib s (c, w) = a * w := by
    unfold catContrib
    rw [ha]
  have hub : catUsedWeight s (c, w) = w := by
    unfold catUsedWeight
    rw [ha]
  have hcb2 : catContrib { s with grades := s.grades ++ [h] } (c, w) = b * w := by
    unfold catContrib
    rw [hb]
  have hub2 : catUsedWeight { s with grades := s.grades ++ [h] } (c, w) = w := by
    unfold catUsedWeight
    rw [hb]
  have hU0 : 0 ≤ ((s.categories.filter (fun p => !(p.1 == c))).map
      (catUsedWeight s)).sum := filtered_used_nonneg s c hwall
  have hT : 0 < ((s.categories.filter (fun p => !(p.1 == c))).map
      (catUsedWeight s)).sum + w := by linarith
  have hcur : s.calculate.overall
      = some (roundTo 2 ((((s.categories.filter (fun p => !(p.1 == c))).map
          (catContrib s)).sum + a * w)
        / (((s.categories.filter (fun p => !(p.1 == c))).map
          (catUsedWeight s)).sum + w))) := by
    rw [calculate_eq]
    dsimp only
    rw [hUsum, hub, hWsum, hcb, if_pos hT]
  have hproj : ({ s with grades := s.grades ++ [h] } : GradeCalculator).calculate.overall
      = some (roundTo 2 ((((s.categories.filter (fun p => !(p.1 == c))).map
          (catContrib s)).sum + b * w)
        / (((s.categories.filter (fun p => !(p.1 == c))).map
          (catUsedWeight s)).sum + w))) := by
    rw [calculate_eq]
    dsimp only
    rw [hUsum2, hub2, hWsum2, hcb2, if_pos hT]
  have hwcur : (s.whatIf [h]).current = s.calculate.overall := rfl
  have hwproj : (s.whatIf [h]).projected
      = ({ s with grades := s.grades ++ [h] } : GradeCalculator).calculate.overall := rfl
  have hwchange : (s.whatIf [h]).change
      = match ({ s with grades := s.grades ++ [h] } :
            GradeCalculator).calculate.overall, s.calculate.overall with
        | some x, some y => some (roundTo 2 (x - y))
        | _, _ => none := rfl
  refine ⟨roundTo 2 ((((s.categories.filter (fun p => !(p.1 == c))).map
      (catContrib s)).sum + a * w)
      / (((s.categories.filter (fun p => !(p.1 == c))).map
        (catUsedWeight s)).sum + w)),
    roundTo 2 ((((s.categories.filter (fun p => !(p.1 == c))).map
      (catContrib s)).sum + b * w)
      / (((s.categories.filter (fun p => !(p.1 == c))).map
        (catUsedWeight s)).sum + w)), ?_, ?_, ?_, ?_, ?_⟩
  · rw [hwcur]
    exact hcur
  · rw [hwproj]
    exact hproj
  · rw [hwchange, hproj, hcur]
  · intro hle
    have hab : a ≤ b := hup hle
    have hdivle : (((s.categories.filter (fun p => !(p.1 == c))).map
          (catContrib s)).sum + a * w)
        / (((s.categories.filter (fun p => !(p.1 == c))).map
          (catUsedWeight s)).sum + w)
        ≤ (((s.categories.filter (fun p => !(p.1 == c))).map
          (catContrib s)).sum + b * w)
        / (((s.categories.filter (fun p => !(p.1 == c))).map
          (catUsedWeight s)).sum + w) := by
      rw [div_le_div_right hT]
      nlinarith
    refine ⟨roundTo_mono 2 hdivle, roundTo_nonneg 2 ?_⟩
    have := roundTo_mono 2 hdivle
    linarith
  · intro hge hne
    have hab : b ≤ a := hdown hge hne
    have hdivle : (((s.categories.filter (fun p => !(p.1 == c))).map
          (catContrib s)).sum + b * w)
        / (((s.categories.filter (fun p => !(p.1 == c))).map
          (catUsedWeight s)).sum + w)
        ≤ (((s.categories.filter (fun p => !(p.1 == c))).map
          (catContrib s)).sum + a * w)
        / (((s.categories.filter (fun p => !(p.1 == c))).map
          (catUsedWeight s)).sum + w) := by
      rw [div_le_div_right hT]
      nlinarith
    have hr := roundTo_mono 2 hdivle
    refine ⟨hr, ?_⟩
    have hr0 : roundTo 2 (0 : ℚ) = 0 := by
      norm_num [roundTo, rndInt]
    refine le_trans (roundTo_mono 2 ?_) (le_of_eq hr0)
    linarith

/-- Counterexample to C8's strict monotonicity: with one `Tests` record
`80000/100000` (average `80`), a hypothetical `80004/100000` has percentage
`80.004`, strictly above the current category average, yet `what_if` reports
`projected = current = 80` and `change = 0`: the unrounded projected overall
`80.002` is erased by `round(..., 2)`, so `projected > current` and
`change > 0` both fail. -/
theorem whatIf_strict_mono_counterexample :
    (80 : ℚ) < pctKey ⟨"T", "h0", 80004, 100000⟩ * 100
    ∧ (⟨[("T", 1)], [⟨"T", "t1", 80000, 100000⟩], [], 0⟩ :
        GradeCalculator).categoryAverage "T" [] = some 80
    ∧ ((⟨[("T", 1)], [⟨"T", "t1", 80000, 100000⟩], [], 0⟩ :
        GradeCalculator).whatIf [⟨"T", "h0", 80004, 100000⟩]).current = some 80
    ∧ ((⟨[("T", 1)], [⟨"T", "t1", 80000, 100000⟩], [], 0⟩ :
        GradeCalculator).whatIf [⟨"T", "h0", 80004, 100000⟩]).projected = some 80
    ∧ ((⟨[("T", 1)], [⟨"T", "t1", 80000, 100000⟩], [], 0⟩ :
        GradeCalculator).whatIf [⟨"T", "h0", 80004, 100000⟩]).change = some 0 := by
  have hA : (⟨[("T", 1)], [⟨"T", "t1", 80000, 100000⟩], [], 0⟩ :
      GradeCalculator).categoryAverage "T" [] = some 80 := by
    rw [categoryAverage_merged]
    norm_num [mergedGrades, GradeCalculator.categoryGrades, catFilter, sortByPct,
      ordInsert, keptGrades, dropCount, sumScores, sumMaxes, List.lookup]
  have hA2 : (⟨[("T", 1)],
      [⟨"T", "t1", 80000, 100000⟩, ⟨"T", "h0", 80004, 100000⟩], [], 0⟩ :
      GradeCalculator).categoryAverage "T" [] = some (40001 / 500) := by
    rw [categoryAverage_merged]
    norm_num [mergedGrades, GradeCalculator.categoryGrades, catFilter, sortByPct,
      ordInsert, pctKey, keptGrades, dropCount, sumScores, sumMaxes, List.lookup]
    simp
  have hcur : (⟨[("T", 1)], [⟨"T", "t1", 80000, 100000⟩], [], 0⟩ :
      GradeCalculator).calculate.overall = some 80 := by
    rw [calculate_eq]
    norm_num [weightedSumOf, weightUsedOf, catContrib, catUsedWeight, hA,
      roundTo, rndInt]
  have hproj : (⟨[("T", 1)],
      [⟨"T", "t1", 80000, 100000⟩, ⟨"T", "h0", 80004, 100000⟩], [], 0⟩ :
      GradeCalculator).calculate.overall = some 80 := by
    rw [calculate_eq]
    norm_num [weightedSumOf, weightUsedOf, catContrib, catUsedWeight, hA2,
      roundTo, rndInt]
  refine ⟨by norm_num [pctKey], hA, ?_, ?_, ?_⟩
  · show (⟨[("T", 1)], [⟨"T", "t1", 80000, 100000⟩], [], 0⟩ :
        GradeCalculator).calculate.overall = some 80
    exact hcur
  · show (⟨[("T", 1)],
        [⟨"T", "t1", 80000, 100000⟩, ⟨"T", "h0", 80004, 100000⟩], [], 0⟩ :
        GradeCalculator).calculate.overall = some 80
    exact hproj
  · have hwch : ((⟨[("T", 1)], [⟨"T", "t1", 80000, 100000⟩], [], 0⟩ :
          GradeCalculator).whatIf [⟨"T", "h0", 80004, 100000⟩]).change
        = match (⟨[("T", 1)],
            [⟨"T", "t1", 80000, 100000⟩, ⟨"T", "h0", 80004, 100000⟩], [], 0⟩ :
            GradeCalculator).calculate.overall,
            (⟨[("T", 1)], [⟨"T", "t1", 80000, 100000⟩], [], 0⟩ :
            GradeCalculator).calculate.overall with
          | some x, some y => some (roundTo 2 (x - y))
          | _, _ => none := rfl
    rw [hwch, hproj, hcur]
    norm_num [roundTo, rndInt]

/-- Witness for `whatIf_single_hypothetical_mono`: one `Tests` record `80/100`
(average `80`) and hypothetical `90/100` (90%, above average): the theorem
applies, giving present current/projected overalls and the monotonicity
conclusions at this concrete input. -/
theorem whatIf_single_hypothetical_mono_witness :
    (⟨[("T", 1)], [⟨"T", "t1", 80, 100⟩], [], 0⟩ :
        GradeCalculator).categoryAverage "T" [] = some 80
    ∧ ∃ cur proj : ℚ,
        ((⟨[("T", 1)], [⟨"T", "t1", 80, 100⟩], [], 0⟩ :
            GradeCalculator).whatIf [⟨"T", "h1", 90, 100⟩]).current = some cur
        ∧ ((⟨[("T", 1)], [⟨"T", "t1", 80, 100⟩], [], 0⟩ :
            GradeCalculator).whatIf [⟨"T", "h1", 90, 100⟩]).projected = some proj
        ∧ ((⟨[("T", 1)], [⟨"T", "t1", 80, 100⟩], [], 0⟩ :
            GradeCalculator).whatIf [⟨"T", "h1", 90, 100⟩]).change
          = some (roundTo 2 (proj - cur))
        ∧ ((80 : ℚ) ≤ pctKey ⟨"T", "h1", 90, 100⟩ * 100 →
            cur ≤ proj ∧ 0 ≤ roundTo 2 (proj - cur))
        ∧ (pctKey ⟨"T", "h1", 90, 100⟩ * 100 ≤ 80 →
            dropCount (⟨[("T", 1)], [⟨"T", "t1", 80, 100⟩], [], 0⟩ :
              GradeCalculator) "T"
              ≠ (((⟨[("T", 1)], [⟨"T", "t1", 80, 100⟩], [], 0⟩ :
                GradeCalculator).categoryGrades "T").length : ℤ) →
            proj ≤ cur ∧ roundTo 2 (proj - cur) ≤ 0) := by
  have ha : (⟨[("T", 1)], [⟨"T", "t1", 80, 100⟩], [], 0⟩ :
      GradeCalculator).categoryAverage "T" [] = some 80 := by
    rw [categoryAverage_merged]
    norm_num [mergedGrades, GradeCalculator.categoryGrades, catFilter, sortByPct,
      ordInsert, keptGrades, dropCount, sumScores, sumMaxes, List.lookup]
  refine ⟨ha, ?_⟩
  exact whatIf_single_hypothetical_mono
    (⟨[("T", 1)], [⟨"T", "t1", 80, 100⟩], [], 0⟩ : GradeCalculator) "T" 1
    ⟨"T", "h1", 90, 100⟩
    (by simp)
    (by simp)
    (by norm_num)
    (by
      intro p hp
      rw [List.mem_singleton.mp hp]
      norm_num)
    rfl
    (by norm_num)
    (by
      intro g hg
      simp [catFilter] at hg
      rw [hg]
      norm_num)
    80 ha
